import Mathlib

/-
Verification development for the network-visualization core subsystem:
GraphState + reconciliation engine, physics simulation, request/hydration
scheduler, and per-node cellular-automaton evolution. Definitions are
shallow embeddings of the JavaScript sources (src/nodes/singlenode.js,
src/nodes/nodes.js, src/nodes/request_queue.js, src/nodes/CA_node_material.js,
physicsEngine.js). Purely visual aspects (geometry, materials, colors,
overlays, canvas rasterization) are outside the embedded fragment, which
matches the stated scope of the specification.
-/

set_option linter.unusedVariables false

namespace VIP

/- ===========================================================
   CA evolution engine (CA_node_material.js, applyGeneBasedEvolution)
   =========================================================== -/

namespace CA

/-- The CA grid as stored by the JS code: a list of columns, each a list of
cells holding 0 or 1, indexed grid[x][y]. -/
abbrev Grid := List (List Nat)

/-- Read cell (x, y); out-of-range reads give 0 (never hit by the JS loops,
which stay inside the size bounds). -/
def cellAt (g : Grid) (x y : Nat) : Nat := (g.getD x []).getD y 0

/-- The Moore neighborhood offsets. The JS code computes the wrapped index as
(x + i + size) % size for i in -1..1; adding size - 1, size, size + 1 over
Nat is the same arithmetic. -/
def mooreDeltas (size : Nat) : List (Nat × Nat) :=
  [(size - 1, size - 1), (size - 1, size), (size - 1, size + 1),
   (size, size - 1), (size, size + 1),
   (size + 1, size - 1), (size + 1, size), (size + 1, size + 1)]

/-- The von Neumann neighborhood offsets, same wrapping convention. -/
def vonNeumannDeltas (size : Nat) : List (Nat × Nat) :=
  [(size - 1, size), (size + 1, size), (size, size - 1), (size, size + 1)]

/-- Count of live neighbors of (x, y) with toroidal wraparound, for the
neighborhood selected by useVonNeumann. -/
def liveNeighbors (useVonNeumann : Bool) (g : Grid) (x y : Nat) : Nat :=
  let size := g.length
  let ds := if useVonNeumann then vonNeumannDeltas size else mooreDeltas size
  (ds.map (fun d => cellAt g ((x + d.1) % size) ((y + d.2) % size))).sum

/-- One evolution step (applyGeneBasedEvolution): a live cell survives when
its live-neighbor count is in the survival set, a dead cell is born when the
count is in the birth set. The JS double buffer is modelled by returning the
next grid. -/
def applyGeneBasedEvolution (birthRules survivalRules : List Nat)
    (useVonNeumann : Bool) (g : Grid) : Grid :=
  let size := g.length
  (List.range size).map (fun x =>
    (List.range size).map (fun y =>
      let n := liveNeighbors useVonNeumann g x y
      if cellAt g x y = 1 then
        (if survivalRules.contains n then 1 else 0)
      else
        (if birthRules.contains n then 1 else 0)))

/-- The vertical 3-cell blinker placed at the center of a 5x5 grid, as the
oscillator seed generator produces it: grid[2][1] = grid[2][2] = grid[2][3] = 1. -/
def blinker5 : Grid :=
  [[0, 0, 0, 0, 0],
   [0, 0, 0, 0, 0],
   [0, 1, 1, 1, 0],
   [0, 0, 0, 0, 0],
   [0, 0, 0, 0, 0]]

end CA

/- ===========================================================
   RequestQueue (request_queue.js)
   =========================================================== -/

namespace RQ

/-- A queued request, as pushed by enqueue. Data payloads are abstracted to
Nat; resolve/reject continuations are represented by the outcome fields of
MakeRequestResult. -/
structure QueueItem where
  url : String
  retries : Nat
  priority : Nat
  addedAt : Nat
deriving Repr, DecidableEq

/-- JS option defaulting with the logical-or operator: options.x || d yields
the default both when the option is absent and when it is 0. -/
def orDefault (o : Option Nat) (d : Nat) : Nat :=
  match o with
  | none => d
  | some v => if v = 0 then d else v

/-- concurrentRequests default (constructor: options.concurrentRequests || 2). -/
def defaultConcurrentRequests : Nat := orDefault none 2

/-- retryLimit default (constructor: options.retryLimit || 3). -/
def defaultRetryLimit : Nat := orDefault none 3

/-- The comparator used by the queue sort: priority ascending, then enqueue
time ascending. -/
def queueLE (a b : QueueItem) : Bool :=
  if a.priority = b.priority then decide (a.addedAt ≤ b.addedAt)
  else decide (a.priority < b.priority)

/-- this.queue.sort with the priority/addedAt comparator. -/
def sortQueue (q : List QueueItem) : List QueueItem := q.mergeSort queueLE

/-- The mutable scheduler state of a RequestQueue instance. -/
structure RQState where
  queue : List QueueItem
  activeRequests : Nat
  isProcessing : Bool
deriving Repr, DecidableEq

/-- A freshly constructed RequestQueue. -/
def initState : RQState := { queue := [], activeRequests := 0, isProcessing := false }

/-- The while loop of processQueue: shift an item and increment activeRequests
while the queue is nonempty and activeRequests < cap. Returns the remaining
queue, the new activeRequests, and the list of items just dispatched. -/
def processLoop (cap : Nat) : List QueueItem → Nat → List QueueItem × Nat × List QueueItem
  | [], a => ([], a, [])
  | it :: rest, a =>
    if a < cap then
      let r := processLoop cap rest (a + 1)
      (r.1, r.2.1, it :: r.2.2)
    else (it :: rest, a, [])

/-- processQueue: when the queue is empty, clear isProcessing and return;
otherwise set isProcessing and run the admission loop. The second component
is the list of requests that went in flight. -/
def processQueue (cap : Nat) (s : RQState) : RQState × List QueueItem :=
  if s.queue = [] then ({ s with isProcessing := false }, [])
  else
    let r := processLoop cap s.queue s.activeRequests
    ({ queue := r.1, activeRequests := r.2.1, isProcessing := true }, r.2.2)

/-- enqueue (past the cache short-circuit): push the item, re-sort the queue
by (priority, addedAt), and start processing when not already processing. -/
def enqueueState (cap : Nat) (s : RQState) (it : QueueItem) : RQState :=
  if s.isProcessing then { s with queue := sortQueue (s.queue ++ [it]) }
  else (processQueue cap { s with queue := sortQueue (s.queue ++ [it]) }).1

/-- The network outcome of one fetch attempt inside makeRequest. -/
inductive FetchOutcome where
  | success (data : Nat)
  | failure
deriving Repr, DecidableEq

/-- The externally visible effect of one makeRequest call: the item possibly
re-inserted at the front of the queue, the promise resolution or rejection,
and whether the callback received the error. -/
structure MakeRequestResult where
  requeuedFront : Option QueueItem
  resolvedWith : Option Nat
  rejected : Bool
  callbackError : Bool
deriving Repr, DecidableEq

/-- makeRequest: on success the promise resolves (and the result is cached);
on failure, when retries < retryLimit the item goes back to the FRONT of the
queue with retries incremented, otherwise the promise rejects and the
callback receives the error. -/
def makeRequest (retryLimit : Nat) (it : QueueItem) : FetchOutcome → MakeRequestResult
  | .success d =>
    { requeuedFront := none, resolvedWith := some d, rejected := false, callbackError := false }
  | .failure =>
    if it.retries < retryLimit then
      { requeuedFront := some { it with retries := it.retries + 1 },
        resolvedWith := none, rejected := false, callbackError := false }
    else
      { requeuedFront := none, resolvedWith := none, rejected := true, callbackError := true }

/-- The retry loop on an item whose fetch always fails, counted from retry
counter r: each failed attempt below the limit re-enters the queue with
retries + 1 and is attempted again; at the limit the promise rejects. -/
def attemptsFrom (retryLimit r : Nat) : Nat :=
  if r < retryLimit then 1 + attemptsFrom retryLimit (r + 1) else 1
  termination_by retryLimit - r
  decreasing_by omega

/-- Number of fetch attempts performed on an item whose fetch always fails,
from its current retry counter until the promise rejects. -/
def attemptsAlwaysFailing (retryLimit : Nat) (it : QueueItem) : Nat :=
  attemptsFrom retryLimit it.retries

/-- The event-loop transitions of a RequestQueue: an enqueue call, a delayed
processQueue wakeup (the setTimeout in the finally handler), and the three
settlements of an in-flight request (success; failure below the retry limit,
which unshifts the item; failure at the limit, which rejects). -/
inductive Step (cap retryLimit : Nat) : RQState → RQState → Prop
  | enqueue (s : RQState) (it : QueueItem) :
      Step cap retryLimit s (enqueueState cap s it)
  | delayedProcess (s : RQState) :
      Step cap retryLimit s (processQueue cap s).1
  | completeSuccess (s : RQState) (h : 1 ≤ s.activeRequests) :
      Step cap retryLimit s { s with activeRequests := s.activeRequests - 1 }
  | completeRetry (s : RQState) (it : QueueItem) (h : 1 ≤ s.activeRequests)
      (hr : it.retries < retryLimit) :
      Step cap retryLimit s
        { s with queue := { it with retries := it.retries + 1 } :: s.queue,
                 activeRequests := s.activeRequests - 1 }
  | completeReject (s : RQState) (h : 1 ≤ s.activeRequests) :
      Step cap retryLimit s { s with activeRequests := s.activeRequests - 1 }

/-- States reachable from a fresh RequestQueue. -/
def Reachable (cap retryLimit : Nat) (s : RQState) : Prop :=
  Relation.ReflTransGen (Step cap retryLimit) initState s

end RQ

/- ===========================================================
   Gene fetching (CA_node_material.js, fetchNodeGenes)
   =========================================================== -/

namespace Gene

/-- Abstract gene payload (result.genes of the API response). -/
structure Genes where
  tag : Nat
deriving Repr, DecidableEq

/-- What the network can do to one direct fetch of the genes endpoint. -/
inductive GeneFetchOutcome where
  | httpError
  | jsonWithoutGenes
  | jsonGenes (g : Genes)
deriving Repr, DecidableEq

/-- An entry of the module-level geneCache. -/
structure GeneCacheEntry where
  genes : Genes
  timestamp : Nat
deriving Repr, DecidableEq

/-- Observable behavior of one fetchNodeGenes call: the value returned to
the caller, how many direct network fetches were made, how many requests
went through the RequestQueue, and the cache write performed. -/
structure GeneFetchTrace where
  result : Option Genes
  directFetchCalls : Nat
  requestQueueEnqueues : Nat
  cacheWrite : Option GeneCacheEntry
deriving Repr, DecidableEq

/-- CACHE_DURATION, 5 minutes in milliseconds. -/
def CACHE_DURATION : Nat := 5 * 60 * 1000

/-- fetchNodeGenes: a fresh cache entry short-circuits; otherwise the code
performs ONE direct fetch(apiUrl) (never routed through window.requestQueue),
returns null on an http error or a response without genes, and caches and
returns the genes otherwise. Errors are swallowed by the catch, so a failing
fetch is never retried. -/
def fetchNodeGenes (cached : Option GeneCacheEntry) (now : Nat)
    (net : GeneFetchOutcome) : GeneFetchTrace :=
  let fresh : GeneFetchTrace :=
    match net with
    | .httpError =>
      { result := none, directFetchCalls := 1, requestQueueEnqueues := 0, cacheWrite := none }
    | .jsonWithoutGenes =>
      { result := none, directFetchCalls := 1, requestQueueEnqueues := 0, cacheWrite := none }
    | .jsonGenes g =>
      { result := some g, directFetchCalls := 1, requestQueueEnqueues := 0,
        cacheWrite := some { genes := g, timestamp := now } }
  match cached with
  | some c =>
    if now - c.timestamp < CACHE_DURATION then
      { result := some c.genes, directFetchCalls := 0, requestQueueEnqueues := 0,
        cacheWrite := none }
    else fresh
  | none => fresh

end Gene

/- ===========================================================
   CA-hydration batch scheduler (singlenode.js applyPendingCAUpdates +
   CA_node_material.js updateNodeToCAMaterial), per-node flags
   =========================================================== -/

namespace Hyd

/-- The hydration flags living on one mesh userData, plus a ghost counter of
dispatched updateNodeToCAMaterial builds that have not settled yet. -/
structure HydrationFlags where
  needsCAUpdate : Bool
  caProcessing : Bool
  caEnabled : Bool
  buildsInFlight : Nat
deriving Repr, DecidableEq

/-- Flags of a freshly created mesh. -/
def initFlags : HydrationFlags :=
  { needsCAUpdate := false, caProcessing := false, caEnabled := false, buildsInFlight := 0 }

/-- Event-loop transitions touching the hydration flags of one node.
markNeeds: updateNodes or reconcileSceneMeshes flags the node (the code only
does so when caEnabled is false).
dispatch: applyPendingCAUpdates picks a node with needsCAUpdate and neither
caProcessing nor caEnabled set, clears needsCAUpdate, sets caProcessing, and
calls updateNodeToCAMaterial; before its first await that call resets both
flags and sets caProcessing back to true, so at the suspension point
caProcessing holds and one build is in flight.
settleSuccess: the build finished, material swapped, caEnabled set and
caProcessing cleared.
settleFailure: the catch inside updateNodeToCAMaterial clears caProcessing. -/
inductive HydStep : HydrationFlags → HydrationFlags → Prop
  | markNeeds (f : HydrationFlags) (he : f.caEnabled = false) :
      HydStep f { f with needsCAUpdate := true }
  | dispatch (f : HydrationFlags) (hn : f.needsCAUpdate = true)
      (hp : f.caProcessing = false) (he : f.caEnabled = false) :
      HydStep f
        { f with
          needsCAUpdate := false
          caProcessing := true
          buildsInFlight := f.buildsInFlight + 1 }
  | settleSuccess (f : HydrationFlags) (h : 1 ≤ f.buildsInFlight) :
      HydStep f
        { f with
          caProcessing := false
          caEnabled := true
          buildsInFlight := f.buildsInFlight - 1 }
  | settleFailure (f : HydrationFlags) (h : 1 ≤ f.buildsInFlight) :
      HydStep f
        { f with
          caProcessing := false
          buildsInFlight := f.buildsInFlight - 1 }

/-- Flag states reachable for one node from mesh creation. -/
def HydReachable (f : HydrationFlags) : Prop :=
  Relation.ReflTransGen HydStep initFlags f

end Hyd

/- ===========================================================
   Physics engine (physicsEngine.js): particle set, pinRouter, rebuild
   =========================================================== -/

namespace Phys

/-- A d3-force-3d simulation particle: position, velocity, and the optional
fixed coordinates fx/fy/fz that pin it. -/
structure Particle where
  id : String
  x : ℚ
  y : ℚ
  z : ℚ
  vx : ℚ
  vy : ℚ
  vz : ℚ
  fx : Option ℚ
  fy : Option ℚ
  fz : Option ℚ
deriving Repr, DecidableEq

/-- Fix a particle at its current coordinates (the body of pinRouter once the
router particle is found). -/
def pinParticle (p : Particle) : Particle :=
  { p with fx := some p.x, fy := some p.y, fz := some p.z }

/-- pinRouter: find the first particle whose registry mesh has type router
(abstracted as the isRouter predicate on ids) and fix its coordinates. -/
def pinRouter (isRouter : String → Bool) : List Particle → List Particle
  | [] => []
  | p :: rest =>
    if isRouter p.id then pinParticle p :: rest else p :: pinRouter isRouter rest

/-- A fresh, unpinned particle at a seeded position (the randomized spherical
shell / cube seeding is abstracted by the seed function). -/
def freshParticle (seed : String → ℚ × ℚ × ℚ) (i : String) : Particle :=
  { id := i, x := (seed i).1, y := (seed i).2.1, z := (seed i).2.2,
    vx := 0, vy := 0, vz := 0, fx := none, fy := none, fz := none }

/-- initializeNodes: rebuild the particle list from the incoming id list,
reusing the existing particle object (position, velocity and pin included)
for every id already present, and seeding only genuinely new ids. -/
def initializeNodes (prev : List Particle) (ids : List String)
    (seed : String → ℚ × ℚ × ℚ) : List Particle :=
  ids.map (fun i =>
    match prev.find? (fun p => p.id = i) with
    | some p => p
    | none => freshParticle seed i)

/-- updateGraph: rebuild the particle set and re-pin the router (the alpha
reheat only injects restart energy and does not move particles by itself). -/
def updateGraph (prev : List Particle) (ids : List String)
    (seed : String → ℚ × ℚ × ℚ) (isRouter : String → Bool) : List Particle :=
  pinRouter isRouter (initializeNodes prev ids seed)

/-- The d3-force velocity decay multiplier (default velocityDecay 0.4 means
velocities are multiplied by 0.6 each tick). -/
def velocityDecay : ℚ := 3 / 5

/-- Modelled from the spec: the simulation itself is d3-force-3d, an external
dependency absent from the sources. Per tick it lets every force add to the
velocities and then integrates per axis; an axis with a fixed coordinate
snaps to it and zeroes its velocity, otherwise the decayed velocity is added
to the position. The combined velocity increment contributed by all forces in
one tick is abstracted as an arbitrary triple dv. -/
def tickParticle (p : Particle) (dv : ℚ × ℚ × ℚ) : Particle :=
  let nvx := (p.vx + dv.1) * velocityDecay
  let nvy := (p.vy + dv.2.1) * velocityDecay
  let nvz := (p.vz + dv.2.2) * velocityDecay
  { p with
    x := match p.fx with | some c => c | none => p.x + nvx
    vx := match p.fx with | some _ => 0 | none => nvx
    y := match p.fy with | some c => c | none => p.y + nvy
    vy := match p.fy with | some _ => 0 | none => nvy
    z := match p.fz with | some c => c | none => p.z + nvz
    vz := match p.fz with | some _ => 0 | none => nvz }

/-- A run of simulation ticks, one arbitrary force increment per tick. -/
def tickRun (p : Particle) : List (ℚ × ℚ × ℚ) → Particle
  | [] => p
  | dv :: rest => tickRun (tickParticle p dv) rest

end Phys

/- ===========================================================
   Orbital-constraint force (physicsEngine.js forceOrbit)
   =========================================================== -/

namespace Orbit

/-- The per-type target orbit radii of forceOrbit: device 100, web 30,
fallback 80 (orbitRadii[type] || orbitRadii["default"]). -/
def orbitRadii (type : String) : ℚ :=
  if type = "device" then 100 else if type = "web" then 30 else 80

/-- orbitalStrength = 0.05. -/
def orbitalStrength : ℚ := 1 / 20

/-- A particle with a declared parent, restricted to the radial line through
the parent: its distance from the parent and its radial velocity. The code
applies its correction along the unit radial vector, so on the radial line
the whole state is this pair. -/
structure RadialState where
  dist : ℚ
  vel : ℚ
deriving Repr, DecidableEq

/-- forceOrbit applied to the radial state: the velocity is corrected by
minus (currentDistance - targetRadius) * orbitalStrength * alpha along the
unit radial vector. -/
def forceOrbitRadial (targetRadius alpha : ℚ) (st : RadialState) : ℚ :=
  st.vel - (st.dist - targetRadius) * orbitalStrength * alpha

/-- Modelled from the spec: one d3-force-3d simulation tick for a particle
subject only to the orbital-constraint force, on the radial line through its
(static) parent; the integrator decays the corrected velocity and adds it to
the position (see Phys.tickParticle). -/
def orbitTick (targetRadius alpha : ℚ) (st : RadialState) : RadialState :=
  let v := forceOrbitRadial targetRadius alpha st * Phys.velocityDecay
  { dist := st.dist + v, vel := v }

/-- n simulation ticks at a fixed alpha. -/
def orbitRun (targetRadius alpha : ℚ) (st : RadialState) : Nat → RadialState
  | 0 => st
  | n + 1 => orbitTick targetRadius alpha (orbitRun targetRadius alpha st n)

/-- Signed distance error from the target orbit radius. -/
def orbitError (targetRadius : ℚ) (st : RadialState) : ℚ := st.dist - targetRadius

/-- The invariant cone of the closed-loop radial dynamics on the outer side
of the orbit: nonnegative error, inward velocity no larger than a quarter of
the error. -/
def OuterCone (targetRadius : ℚ) (st : RadialState) : Prop :=
  0 ≤ st.dist - targetRadius ∧
  -((st.dist - targetRadius) / 4) ≤ st.vel ∧ st.vel ≤ 0

/-- Reflection of a radial state through the target orbit. -/
def mirrorState (targetRadius : ℚ) (st : RadialState) : RadialState :=
  { dist := 2 * targetRadius - st.dist, vel := -st.vel }

end Orbit

/- ===========================================================
   GraphState + reconciliation engine (singlenode.js NodesManager)
   =========================================================== -/

namespace Rec

/-- String.prototype.startsWith of JS, embedded on the character lists. -/
def strStartsWith (s p : String) : Bool := s.data.take p.data.length == p.data

/-- The scan-artifact id test at the top of reconcileSceneMeshes: ids with
one of these five markers represent scans and are skipped. -/
def scanId (id : String) : Bool :=
  strStartsWith id "portscan-" || strStartsWith id "bgpscan-" ||
  strStartsWith id "sslscan-" || strStartsWith id "webscan-" ||
  strStartsWith id "advanced_"

/-- Render positions. The randomized placements of reconcileSceneMeshes and
createNodeMesh (short radius around the router, long radius around the
origin, web orbit around the parent) are abstracted to tagged values, since
none of the verified properties depends on the sampled coordinates; a port
moon position records the exact angle fraction index/count of the full turn
and the orbit radius used by spawnChildNodes. -/
inductive Pos where
  | given (tag : Nat)
  | origin
  | nearRouter
  | farShell
  | webOrbit
  | portOrbit (index count : Nat) (radius : ℚ)
deriving Repr, DecidableEq

/-- An incoming snapshot node / a GraphState record. Fields absent on the JS
object are none. -/
structure NodeData where
  id : String
  type : Option String := none
  layer : Option String := none
  parentId : Option String := none
  position : Option Pos := none
  ports : Option (List Nat) := none
  fully_scanned : Option Bool := none
  found : Option Bool := none
deriving Repr, DecidableEq

/-- Modelled from the spec: GraphState lives in src/nodes/state.js, which
the reconciliation code imports but which is absent from the sources. Per
the spec, addOrUpdateNode merges data over the existing record for data.id
(the record is created empty when absent), fields absent in data are
preserved, and getNode / getAllNodes are pure reads with no validation. -/
abbrev GraphState := List (String × NodeData)

def getNode (st : GraphState) (id : String) : Option NodeData :=
  (st.find? (fun kv => kv.1 == id)).map (fun kv => kv.2)

/-- An empty record for a newly seen id. -/
def emptyRecord (id : String) : NodeData := { id := id }

/-- Field-by-field shallow merge: fields present in the update win, absent
fields keep the stored value. -/
def mergeRecord (old d : NodeData) : NodeData :=
  { id := d.id
    type := d.type.orElse (fun _ => old.type)
    layer := d.layer.orElse (fun _ => old.layer)
    parentId := d.parentId.orElse (fun _ => old.parentId)
    position := d.position.orElse (fun _ => old.position)
    ports := d.ports.orElse (fun _ => old.ports)
    fully_scanned := d.fully_scanned.orElse (fun _ => old.fully_scanned)
    found := d.found.orElse (fun _ => old.found) }

/-- Merge the update over the stored record (created empty when absent);
keys are unique, so replacing the first binding is the JS object update. -/
def addOrUpdateNode : GraphState → NodeData → GraphState
  | [], d => [(d.id, mergeRecord (emptyRecord d.id) d)]
  | kv :: rest, d =>
    if kv.1 == d.id then (kv.1, mergeRecord kv.2 d) :: rest
    else kv :: addOrUpdateNode rest d

/-- Write-back of an in-place record mutation (reconcileSceneMeshes assigns
the computed placement to nodeState.position on the record it got from
GraphState, mutating the stored object). -/
def setRecord : GraphState → String → NodeData → GraphState
  | [], _, _ => []
  | kv :: rest, id, r =>
    if kv.1 == id then (kv.1, r) :: rest else kv :: setRecord rest id r

/-- mesh.userData: the spread of the node record made by createNodeMesh plus
the flags the reconciler and hydration scheduler maintain. The visual seed
is omitted (pure rendering). -/
structure UserData where
  id : String
  type : Option String := none
  layer : Option String := none
  parentId : Option String := none
  position : Option Pos := none
  ports : Option (List Nat) := none
  fully_scanned : Option Bool := none
  found : Option Bool := none
  label : Option String := none
  port : Option Nat := none
  isUnexploredExternal : Bool := false
  needsCAUpdate : Bool := false
  caProcessing : Bool := false
  caEnabled : Bool := false
deriving Repr, DecidableEq

/-- The userData of a freshly created mesh: a copy of the record fields. -/
def userDataOfRecord (r : NodeData) : UserData :=
  { id := r.id, type := r.type, layer := r.layer, parentId := r.parentId,
    position := r.position, ports := r.ports, fully_scanned := r.fully_scanned,
    found := r.found }

/-- Object.assign(mesh.userData, record): every field present on the
GraphState record overwrites the matching userData field; fields that are
not part of a record (flags and child-only fields) stay. -/
def assignRecord (u : UserData) (r : NodeData) : UserData :=
  { u with
    id := r.id
    type := r.type.orElse (fun _ => u.type)
    layer := r.layer.orElse (fun _ => u.layer)
    parentId := r.parentId.orElse (fun _ => u.parentId)
    position := r.position.orElse (fun _ => u.position)
    ports := r.ports.orElse (fun _ => u.ports)
    fully_scanned := r.fully_scanned.orElse (fun _ => u.fully_scanned)
    found := r.found.orElse (fun _ => u.found) }

/-- A THREE mesh as the reconciler sees it: name (set only on port moons),
userData, position, children. Geometry and material are out of the fragment. -/
inductive Mesh where
  | mk (name : String) (userData : UserData) (position : Option Pos) (children : List Mesh)

def Mesh.name : Mesh → String
  | .mk n _ _ _ => n

def Mesh.userData : Mesh → UserData
  | .mk _ u _ _ => u

def Mesh.position : Mesh → Option Pos
  | .mk _ _ p _ => p

def Mesh.children : Mesh → List Mesh
  | .mk _ _ _ c => c

def Mesh.withUserData (m : Mesh) (u : UserData) : Mesh :=
  .mk m.name u m.position m.children

def Mesh.withPosition (m : Mesh) (p : Option Pos) : Mesh :=
  .mk m.name m.userData p m.children

def Mesh.withChildren (m : Mesh) (c : List Mesh) : Mesh :=
  .mk m.name m.userData m.position c

/-- THREE getObjectByName, searching the mesh and its children. Port moons
never carry children of their own, so one level of descent is the full
recursive search for every mesh this manager builds. -/
def Mesh.getObjectByName (m : Mesh) (n : String) : Option Mesh :=
  if m.name == n then some m else m.children.find? (fun c => c.name == n)

/-- The node registry: a JS Map from id to mesh in insertion order. -/
abbrev Registry := List (String × Mesh)

def rlookup (reg : Registry) (k : String) : Option Mesh :=
  (reg.find? (fun kv => kv.1 == k)).map (fun kv => kv.2)

/-- Map.set: replace in place when the key exists (keys are unique, so
replacing the first binding is exactly that), append otherwise. -/
def rset : Registry → String → Mesh → Registry
  | [], k, m => [(k, m)]
  | kv :: rest, k, m =>
    if kv.1 == k then (k, m) :: rest else kv :: rset rest k m

/-- Map.delete (keys are unique, so dropping every binding of the key is
exactly that). -/
def rdel : Registry → String → Registry
  | [], _ => []
  | kv :: rest, k => if kv.1 == k then rdel rest k else kv :: rdel rest k

/-- createNodeMesh (singlenode.js): the userData copies the record; a
web-layer node with a known parent gets a randomized orbit position,
otherwise the record position is used when present. (The
decodeURIComponent fallback of getNodeById is the identity on the id
alphabet in play and is omitted.) -/
def createNodeMesh (reg : Registry) (r : NodeData) : Mesh :=
  let pos : Option Pos :=
    match r.layer == some "web", r.parentId with
    | true, some p => if (rlookup reg p).isSome then some Pos.webOrbit else none
    | _, _ => r.position
  Mesh.mk "" (userDataOfRecord r) pos []

/-- The shared name stem of the port moons of one parent. -/
def portStem (parentId : String) : String := parentId ++ "-port-"

/-- The name and registry id of the moon of one port. -/
def portChildName (parentId : String) (port : Nat) : String :=
  portStem parentId ++ toString port

/-- removeChildNodesForPorts: drop from the parent every child whose name
starts with id-port- and delete those children from the registry. -/
def removeChildNodesForPorts (reg : Registry) (parent : Mesh) : Registry × Mesh :=
  let stem := portStem parent.userData.id
  let toRemove := parent.children.filter (fun c => strStartsWith c.name stem)
  let kept := parent.children.filter (fun c => !strStartsWith c.name stem)
  (toRemove.foldl (fun r c => rdel r c.userData.id) reg, parent.withChildren kept)

/-- One port moon: a small sphere at angle 2 pi index / count on a circle of
radius 40 around the parent, named parentId-port-port. -/
def childMesh (parentId : String) (port index count : Nat) : Mesh :=
  Mesh.mk (portChildName parentId port)
    { id := portChildName parentId port
      type := some "child"
      label := some ("Port " ++ toString port)
      port := some port
      parentId := some parentId }
    (some (Pos.portOrbit index count 40)) []

/-- spawnChildNodes: remove every existing port moon, then create one moon
per open port, evenly spaced on the fixed-radius orbit, adding each to the
parent and to the registry, and finally store the port list on the parent
userData. -/
def spawnChildNodes (reg : Registry) (parent : Mesh) (openPorts : List Nat) :
    Registry × Mesh :=
  let rm := removeChildNodesForPorts reg parent
  let count := openPorts.length
  let moons := openPorts.enum.map (fun ip => childMesh rm.2.userData.id ip.2 ip.1 count)
  let parent2 := (rm.2.withChildren (rm.2.children ++ moons)).withUserData
    { rm.2.userData with ports := some openPorts }
  (moons.foldl (fun r c => rset r c.userData.id c) rm.1, parent2)

/-- The port-moon step at the end of one reconciliation iteration: when the
mesh carries a nonempty port list and no child exists for the FIRST listed
port, all moons are respawned; otherwise nothing happens. -/
def portStep (st : GraphState) (reg : Registry) (id : String) :
    GraphState × Registry :=
  match rlookup reg id with
  | none => (st, reg)
  | some mesh =>
    match mesh.userData.ports with
    | some (p :: ps) =>
      if (mesh.getObjectByName (portChildName mesh.userData.id p)).isSome then (st, reg)
      else
        let rm := spawnChildNodes reg mesh (p :: ps)
        (st, rset rm.1 rm.2.userData.id rm.2)
    | _ => (st, reg)

/-- The initial placement of the create branch: the router goes to the
origin, a device with a known router to a randomized short radius around it,
anything else to a randomized long radius; an explicit position or the web
layer suppresses placement. -/
def placeRecord (routerExists : Bool) (ns : NodeData) : NodeData :=
  if ns.position.isNone && !(ns.layer == some "web") then
    if ns.type == some "router" then { ns with position := some Pos.origin }
    else if ns.type == some "device" && routerExists then
      { ns with position := some Pos.nearRouter }
    else { ns with position := some Pos.farShell }
  else ns

/-- The mesh built and registered by the create branch: createNodeMesh plus
the needsCAUpdate flag when the record is fully scanned. -/
def createMeshFor (reg : Registry) (placed : NodeData) : Mesh :=
  let mesh0 := createNodeMesh reg placed
  if placed.fully_scanned == some true then
    mesh0.withUserData { mesh0.userData with needsCAUpdate := true }
  else mesh0

/-- The create branch of reconcileSceneMeshes: compute the placement (written
back to the GraphState record, which the JS code mutates in place), create
and register the mesh, then the port-moon step. -/
def reconcileCreate (routerExists : Bool) (st : GraphState) (reg : Registry)
    (ns : NodeData) : GraphState × Registry :=
  let placed := placeRecord routerExists ns
  portStep (setRecord st ns.id placed) (rset reg ns.id (createMeshFor reg placed)) ns.id

/-- The mesh as mutated by the update branch: the record assigned over the
userData, a pending unexplored-to-found transition finished, the position
updated, and the needsCAUpdate flag set for a newly fully scanned node. -/
def updateMeshFor (reg : Registry) (ns : NodeData) (mesh : Mesh) : Mesh :=
  let u1 := assignRecord mesh.userData ns
  let u2 :=
    if mesh.userData.isUnexploredExternal && ns.found.isSome then
      { u1 with isUnexploredExternal := false }
    else u1
  let mesh1 := mesh.withUserData u2
  let mesh2 :=
    if ns.position.isSome then mesh1.withPosition ns.position
    else
      match ns.layer == some "web", ns.parentId with
      | true, some p =>
        if (rlookup reg p).isSome then mesh1.withPosition (some Pos.webOrbit) else mesh1
      | _, _ => mesh1
  if ns.fully_scanned == some true && !mesh2.userData.caEnabled
      && !mesh2.userData.caProcessing then
    mesh2.withUserData { mesh2.userData with needsCAUpdate := true }
  else mesh2

/-- The update branch of reconcileSceneMeshes: mutate the mesh in place (the
registry holds the same object), then the port-moon step. -/
def reconcileUpdate (st : GraphState) (reg : Registry) (ns : NodeData)
    (mesh : Mesh) : GraphState × Registry :=
  portStep st (rset reg ns.id (updateMeshFor reg ns mesh)) ns.id

/-- One iteration of the reconcileSceneMeshes loop for a changed id: skip
scan ids; create (with initial placement written back to the record) or
update the mesh; then the port-moon step. The overlay refresh, material
color updates and the 500 ms transition flash are pure rendering and omitted;
the unexplored-to-found flag flip is kept. -/
def reconcileOne (routerExists : Bool) (st : GraphState) (reg : Registry)
    (id : String) : GraphState × Registry :=
  match getNode st id with
  | none => (st, reg)
  | some ns =>
    if scanId ns.id then (st, reg)
    else
      match rlookup reg ns.id with
      | none => reconcileCreate routerExists st reg ns
      | some mesh => reconcileUpdate st reg ns mesh

/-- reconcileSceneMeshes: iterate over the changed ids (all ids when the
changed set is empty), with the router mesh looked up once before the loop. -/
def reconcileSceneMeshes (changed : List String) (st : GraphState) (reg : Registry) :
    GraphState × Registry :=
  let ids := if changed.isEmpty then st.map (fun kv => kv.1) else changed
  let routerExists := (rlookup reg "router").isSome
  ids.foldl (fun acc id => reconcileOne routerExists acc.1 acc.2 id) (st, reg)

/-- The synchronous part of applyPendingCAUpdates: the first mesh (batch
size 1) flagged needsCAUpdate with neither caProcessing nor caEnabled has
needsCAUpdate cleared and caProcessing set; the asynchronous build and its
settlement are the Hyd transition system. -/
def applyPendingCAUpdates (reg : Registry) : Registry :=
  match reg.find? (fun kv =>
      kv.2.userData.needsCAUpdate && !kv.2.userData.caProcessing
        && !kv.2.userData.caEnabled) with
  | none => reg
  | some kv =>
    rset reg kv.1 (kv.2.withUserData
      { kv.2.userData with needsCAUpdate := false, caProcessing := true })

/-- The mutable state of a NodesManager between updateNodes calls. -/
structure Manager where
  state : GraphState
  registry : Registry
  changed : List String

/-- A freshly constructed NodesManager. -/
def emptyManager : Manager := { state := [], registry := [], changed := [] }

/-- The merge loop at the top of updateNodes for one incoming node: merge
into GraphState, add the id to the changed set, and flag the mesh of a node
that just became fully scanned. -/
def mergeStep (m : Manager) (nd : NodeData) : Manager :=
  let existing := getNode m.state nd.id
  let wasFullyScanned := (existing.bind (fun r => r.fully_scanned)).getD false
  let isNowFullyScanned := nd.fully_scanned.getD false
  let st1 := addOrUpdateNode m.state nd
  let ch1 := if m.changed.contains nd.id then m.changed else m.changed ++ [nd.id]
  let reg1 :=
    if !wasFullyScanned && isNowFullyScanned then
      match rlookup m.registry nd.id with
      | some mesh =>
        if !mesh.userData.caEnabled then
          rset m.registry nd.id
            (mesh.withUserData { mesh.userData with needsCAUpdate := true })
        else m.registry
      | none => m.registry
    else m.registry
  { state := st1, registry := reg1, changed := ch1 }

/-- updateNodes (singlenode.js NodesManager): merge every incoming node,
reconcile the changed ids, run one synchronous hydration-batch pass, and
clear the changed set. The physics rebuild between reconciliation and the
batch pass is the Phys model; it does not touch GraphState or the registry. -/
def updateNodes (m : Manager) (nodesData : List NodeData) : Manager :=
  let m1 := nodesData.foldl mergeStep m
  let sr := reconcileSceneMeshes m1.changed m1.state m1.registry
  { state := sr.1, registry := applyPendingCAUpdates sr.2, changed := [] }

/-- The port moons currently attached to the mesh of an id. -/
def portChildrenOf (m : Manager) (id : String) : List Mesh :=
  match rlookup m.registry id with
  | none => []
  | some mesh => mesh.children.filter (fun c => strStartsWith c.name (portStem id))

/-- The C1 scenario snapshot: one device with the given open ports. -/
def deviceSnapshot (ports : List Nat) : NodeData :=
  { id := "10.0.0.5", type := some "device", ports := some ports }

/-- Ids that cannot collide with a spawned port-moon name. -/
def PlainId (id : String) : Prop :=
  ∀ (p : String) (port : Nat), id ≠ portChildName p port

/-- Every GraphState record is stored under its own id. -/
def StateKey (st : GraphState) : Prop :=
  ∀ id r, getNode st id = some r → r.id = id

/-- Every id present in GraphState is plain (holds whenever snapshots carry
only plain ids). -/
def StatePlain (st : GraphState) : Prop :=
  ∀ id, (getNode st id).isSome → PlainId id

/-- Structural well-formedness of the registry: unique keys, every mesh
stored under its userData id, and every child of a stored mesh is a port
moon of that mesh (moon-named, with its id equal to its name). -/
def RegWF (reg : Registry) : Prop :=
  (reg.map Prod.fst).Nodup ∧
  (∀ k mesh, rlookup reg k = some mesh → mesh.userData.id = k) ∧
  (∀ k mesh, rlookup reg k = some mesh → ∀ c ∈ mesh.children,
    ∃ port : Nat, c.name = portChildName k port ∧ c.userData.id = c.name)

/-- The full between-updates invariant of a manager: registry
well-formedness, state well-formedness, an empty changed set, and the two
inclusions tying registry membership to GraphState membership. -/
def ManagerWF (m : Manager) : Prop :=
  RegWF m.registry ∧ StateKey m.state ∧ StatePlain m.state ∧ m.changed = [] ∧
  (∀ id, (getNode m.state id).isSome → scanId id = false →
    (rlookup m.registry id).isSome) ∧
  (∀ id, (rlookup m.registry id).isSome → PlainId id →
    (getNode m.state id).isSome ∧ scanId id = false)

end Rec

end VIP

/- ===========================================================
   Claim theorems (first group)
   =========================================================== -/

open VIP

/-- C9: under birth = {3}, survival = {2, 3} with the 8-neighbor Moore
neighborhood and toroidal wraparound, the 3-cell blinker on a 5x5 grid
oscillates with exact period 2: two evolution steps restore the initial
grid and one step does not. -/
theorem ca_blinker_period_two :
    CA.applyGeneBasedEvolution [3] [2, 3] false
        (CA.applyGeneBasedEvolution [3] [2, 3] false CA.blinker5) = CA.blinker5 ∧
    CA.applyGeneBasedEvolution [3] [2, 3] false CA.blinker5 ≠ CA.blinker5 := by
  constructor
  · decide
  · decide

lemma rq_processLoop_active_le (cap : Nat) (q : List RQ.QueueItem) (a : Nat) (h : a ≤ cap) :
    (RQ.processLoop cap q a).2.1 ≤ cap := by
  induction q generalizing a with
  | nil => simpa [RQ.processLoop] using h
  | cons it rest ih =>
    by_cases hlt : a < cap
    · simpa [RQ.processLoop, hlt] using ih (a + 1) hlt
    · simpa [RQ.processLoop, hlt] using h

lemma rq_processQueue_active_le (cap : Nat) (s : RQ.RQState) (h : s.activeRequests ≤ cap) :
    (RQ.processQueue cap s).1.activeRequests ≤ cap := by
  by_cases hq : s.queue = []
  · simpa [RQ.processQueue, hq] using h
  · simpa [RQ.processQueue, hq] using rq_processLoop_active_le cap s.queue s.activeRequests h

lemma rq_enqueueState_active_le (cap : Nat) (s : RQ.RQState) (it : RQ.QueueItem)
    (h : s.activeRequests ≤ cap) :
    (RQ.enqueueState cap s it).activeRequests ≤ cap := by
  have h1 : ({ s with queue := RQ.sortQueue (s.queue ++ [it]) } : RQ.RQState).activeRequests ≤ cap := h
  by_cases hp : s.isProcessing
  · simpa [RQ.enqueueState, hp] using h1
  · simpa [RQ.enqueueState, hp] using rq_processQueue_active_le cap _ h1

lemma rq_step_active_le {cap retryLimit : Nat} {s s' : RQ.RQState}
    (hstep : RQ.Step cap retryLimit s s') (h : s.activeRequests ≤ cap) :
    s'.activeRequests ≤ cap := by
  cases hstep with
  | enqueue it => exact rq_enqueueState_active_le cap s it h
  | delayedProcess => exact rq_processQueue_active_le cap s h
  | completeSuccess hs => exact Nat.le_trans (Nat.sub_le _ _) h
  | completeRetry it hs hr => exact Nat.le_trans (Nat.sub_le _ _) h
  | completeReject hs => exact Nat.le_trans (Nat.sub_le _ _) h

lemma attemptsFrom_eq (rl r : Nat) : RQ.attemptsFrom rl r = rl - r + 1 := by
  by_cases h : r < rl
  · rw [RQ.attemptsFrom, if_pos h, attemptsFrom_eq rl (r + 1)]
    omega
  · rw [RQ.attemptsFrom, if_neg h]
    omega
  termination_by rl - r
  decreasing_by omega

/-- C6: a request whose fetch always fails is attempted exactly
retryLimit + 1 times (4 with the default retryLimit of 3); every failed
attempt below the limit re-inserts the item at the front of the queue with
an incremented retry counter, and at the limit the promise rejects and the
callback receives the error. -/
theorem makeRequest_retry_bound (retryLimit : Nat) (it : RQ.QueueItem)
    (h0 : it.retries = 0) :
    RQ.attemptsAlwaysFailing retryLimit it = retryLimit + 1 ∧
    RQ.defaultRetryLimit = 3 ∧
    (∀ it2 : RQ.QueueItem, it2.retries < retryLimit →
      RQ.makeRequest retryLimit it2 .failure =
        { requeuedFront := some { it2 with retries := it2.retries + 1 },
          resolvedWith := none, rejected := false, callbackError := false }) ∧
    (∀ it2 : RQ.QueueItem, retryLimit ≤ it2.retries →
      RQ.makeRequest retryLimit it2 .failure =
        { requeuedFront := none, resolvedWith := none, rejected := true,
          callbackError := true }) := by
  refine ⟨?_, rfl, ?_, ?_⟩
  · simp only [RQ.attemptsAlwaysFailing]
    rw [attemptsFrom_eq, h0]
    omega
  · intro it2 hlt
    simp [RQ.makeRequest, hlt]
  · intro it2 hge
    simp [RQ.makeRequest, Nat.not_lt.mpr hge]

/-- Witness for C6 at a concrete item with the default retry limit. -/
theorem makeRequest_retry_bound_witness :
    RQ.attemptsAlwaysFailing 3 { url := "http://host/genes", retries := 0, priority := 5, addedAt := 0 } = 4 :=
  (makeRequest_retry_bound 3 _ rfl).1

/-- C7: for every sequence of scheduler events with concurrency cap cap
(default 2), the number of in-flight requests never exceeds cap in any
reachable state. -/
theorem requestQueue_admission (cap retryLimit : Nat) (s : RQ.RQState)
    (h : RQ.Reachable cap retryLimit s) :
    s.activeRequests ≤ cap ∧ RQ.defaultConcurrentRequests = 2 := by
  refine ⟨?_, rfl⟩
  induction h with
  | refl => exact Nat.zero_le cap
  | tail _ hstep ih => exact rq_step_active_le hstep ih

/-- Witness for C7: a state reached by one enqueue under the default cap. -/
theorem requestQueue_admission_witness :
    (RQ.enqueueState 2 RQ.initState
        { url := "http://host/a", retries := 0, priority := 5, addedAt := 0 }).activeRequests ≤ 2 :=
  (requestQueue_admission 2 3 _
    (Relation.ReflTransGen.single (RQ.Step.enqueue RQ.initState _))).1

lemma hyd_step_inv {f f' : Hyd.HydrationFlags} (hstep : Hyd.HydStep f f')
    (h : f.buildsInFlight ≤ 1 ∧ (f.caProcessing = true ↔ f.buildsInFlight = 1)) :
    f'.buildsInFlight ≤ 1 ∧ (f'.caProcessing = true ↔ f'.buildsInFlight = 1) := by
  obtain ⟨h1, h2⟩ := h
  cases hstep with
  | markNeeds he => exact ⟨h1, h2⟩
  | dispatch hn hp he =>
    have h0 : f.buildsInFlight = 0 := by
      rcases Nat.lt_or_ge f.buildsInFlight 1 with hlt | hge
      · omega
      · exact absurd (h2.mpr (by omega)) (by simp [hp])
    refine ⟨by simp [h0], by simp [h0]⟩
  | settleSuccess hf =>
    have h0 : f.buildsInFlight = 1 := by omega
    refine ⟨by simp [h0], by simp [h0]⟩
  | settleFailure hf =>
    have h0 : f.buildsInFlight = 1 := by omega
    refine ⟨by simp [h0], by simp [h0]⟩

/-- C2: for every node, at most one hydration build is in flight at any
time: in every reachable flag state the in-flight count is at most 1, and
it is 1 exactly while the caProcessing flag is set, so no second build can
be dispatched (the dispatch guard requires caProcessing to be clear) until
the first settles and clears the flag. -/
theorem hydration_single_flight (f : Hyd.HydrationFlags) (h : Hyd.HydReachable f) :
    f.buildsInFlight ≤ 1 ∧ (f.caProcessing = true ↔ f.buildsInFlight = 1) := by
  induction h with
  | refl => exact ⟨by simp [Hyd.initFlags], by simp [Hyd.initFlags]⟩
  | tail _ hstep ih => exact hyd_step_inv hstep ih

/-- Witness for C2: the state just after a build was dispatched. -/
theorem hydration_single_flight_witness :
    (Hyd.HydrationFlags.mk false true false 1).buildsInFlight ≤ 1 ∧
    ((Hyd.HydrationFlags.mk false true false 1).caProcessing = true ↔
      (Hyd.HydrationFlags.mk false true false 1).buildsInFlight = 1) :=
  hydration_single_flight _
    (Relation.ReflTransGen.tail
      (Relation.ReflTransGen.single (Hyd.HydStep.markNeeds Hyd.initFlags rfl))
      (Hyd.HydStep.dispatch (Hyd.HydrationFlags.mk true false false 0) rfl rfl rfl))

lemma phys_tick_pinned (p : Phys.Particle) (a b c : ℚ)
    (hx : p.fx = some a) (hy : p.fy = some b) (hz : p.fz = some c)
    (dv : ℚ × ℚ × ℚ) :
    (Phys.tickParticle p dv).x = a ∧ (Phys.tickParticle p dv).y = b ∧
    (Phys.tickParticle p dv).z = c ∧ (Phys.tickParticle p dv).fx = some a ∧
    (Phys.tickParticle p dv).fy = some b ∧ (Phys.tickParticle p dv).fz = some c := by
  simp [Phys.tickParticle, hx, hy, hz]

lemma phys_tickRun_pinned (dvs : List (ℚ × ℚ × ℚ)) (p : Phys.Particle) (a b c : ℚ)
    (hx : p.fx = some a) (hy : p.fy = some b) (hz : p.fz = some c)
    (hpx : p.x = a) (hpy : p.y = b) (hpz : p.z = c) :
    (Phys.tickRun p dvs).x = a ∧ (Phys.tickRun p dvs).y = b ∧ (Phys.tickRun p dvs).z = c := by
  induction dvs generalizing p with
  | nil => exact ⟨hpx, hpy, hpz⟩
  | cons dv rest ih =>
    have h := phys_tick_pinned p a b c hx hy hz dv
    exact ih (Phys.tickParticle p dv) h.2.2.2.1 h.2.2.2.2.1 h.2.2.2.2.2 h.1 h.2.1 h.2.2.1

lemma phys_pinRouter_mem (isRouter : String → Bool) (l : List Phys.Particle)
    (r : Phys.Particle) (hfind : l.find? (fun q => isRouter q.id) = some r) :
    Phys.pinParticle r ∈ Phys.pinRouter isRouter l := by
  induction l with
  | nil => simp at hfind
  | cons p rest ih =>
    by_cases hp : isRouter p.id
    · rw [List.find?_cons_of_pos _ (by simpa using hp)] at hfind
      obtain rfl : p = r := by simpa using hfind
      simp [Phys.pinRouter, hp]
    · rw [List.find?_cons_of_neg _ (by simpa using hp)] at hfind
      simp only [Phys.pinRouter, hp, if_false, Bool.false_eq_true]
      exact List.mem_cons_of_mem p (ih hfind)

/-- C8: the router particle, once pinned, never moves under simulation. On
every rebuild, updateGraph re-pins the router found in the rebuilt particle
list at its current coordinates, and after any sequence of simulation ticks
with arbitrary force contributions its position is unchanged. -/
theorem router_pin_invariant (prev : List Phys.Particle) (ids : List String)
    (seed : String → ℚ × ℚ × ℚ) (isRouter : String → Bool) (r : Phys.Particle)
    (hfind : (Phys.initializeNodes prev ids seed).find? (fun q => isRouter q.id) = some r) :
    Phys.pinParticle r ∈ Phys.updateGraph prev ids seed isRouter ∧
    (Phys.pinParticle r).fx = some r.x ∧
    (Phys.pinParticle r).fy = some r.y ∧
    (Phys.pinParticle r).fz = some r.z ∧
    ∀ dvs : List (ℚ × ℚ × ℚ),
      (Phys.tickRun (Phys.pinParticle r) dvs).x = r.x ∧
      (Phys.tickRun (Phys.pinParticle r) dvs).y = r.y ∧
      (Phys.tickRun (Phys.pinParticle r) dvs).z = r.z := by
  refine ⟨phys_pinRouter_mem isRouter _ r hfind, rfl, rfl, rfl, ?_⟩
  intro dvs
  exact phys_tickRun_pinned dvs (Phys.pinParticle r) r.x r.y r.z rfl rfl rfl rfl rfl rfl

/-- Witness for C8: a one-node rebuild containing only the router. -/
theorem router_pin_invariant_witness :
    Phys.pinParticle (Phys.freshParticle (fun _ => ((0 : ℚ), (0 : ℚ), (0 : ℚ))) "router") ∈
      Phys.updateGraph [] ["router"] (fun _ => ((0 : ℚ), (0 : ℚ), (0 : ℚ)))
        (fun s => s == "router") :=
  (router_pin_invariant [] ["router"] (fun _ => ((0 : ℚ), (0 : ℚ), (0 : ℚ)))
    (fun s => s == "router") _ (by rfl)).1

lemma orbit_tick_outer (R alpha : ℚ) (st : VIP.Orbit.RadialState)
    (ha0 : 0 ≤ alpha) (ha1 : alpha ≤ 1) (h : Orbit.OuterCone R st) :
    Orbit.OuterCone R (Orbit.orbitTick R alpha st) ∧
    Orbit.orbitError R (Orbit.orbitTick R alpha st) ≤ Orbit.orbitError R st ∧
    Orbit.orbitError R (Orbit.orbitTick R alpha st) ≤
      (1 - 3 * alpha / 100) * Orbit.orbitError R st := by
  obtain ⟨he, hvl, hvu⟩ := h
  have hX0 : 0 ≤ (st.dist - R) * alpha := mul_nonneg he ha0
  have hX1 : (st.dist - R) * alpha ≤ st.dist - R := by nlinarith
  simp only [Orbit.OuterCone, Orbit.orbitTick, Orbit.forceOrbitRadial, Orbit.orbitError,
    Orbit.orbitalStrength, Phys.velocityDecay]
  refine ⟨⟨by nlinarith, by nlinarith, by nlinarith⟩, by nlinarith, by nlinarith⟩

lemma orbit_tick_mirror (R alpha : ℚ) (st : VIP.Orbit.RadialState) :
    Orbit.orbitTick R alpha (Orbit.mirrorState R st) =
      Orbit.mirrorState R (Orbit.orbitTick R alpha st) := by
  simp only [Orbit.orbitTick, Orbit.mirrorState, Orbit.forceOrbitRadial,
    Orbit.RadialState.mk.injEq]
  constructor <;> ring

lemma orbit_run_mirror (R alpha : ℚ) (st : VIP.Orbit.RadialState) (n : Nat) :
    Orbit.orbitRun R alpha (Orbit.mirrorState R st) n =
      Orbit.mirrorState R (Orbit.orbitRun R alpha st n) := by
  induction n with
  | zero => rfl
  | succ n ih => rw [Orbit.orbitRun, ih, orbit_tick_mirror, Orbit.orbitRun]

lemma orbit_error_mirror (R : ℚ) (st : VIP.Orbit.RadialState) :
    Orbit.orbitError R (Orbit.mirrorState R st) = -Orbit.orbitError R st := by
  simp only [Orbit.orbitError, Orbit.mirrorState]
  ring

lemma orbit_run_outer (R alpha : ℚ) (ha0 : 0 ≤ alpha) (ha1 : alpha ≤ 1)
    (st : VIP.Orbit.RadialState) (h : Orbit.OuterCone R st) (n : Nat) :
    Orbit.OuterCone R (Orbit.orbitRun R alpha st n) ∧
    Orbit.orbitError R (Orbit.orbitRun R alpha st n) ≤
      (1 - 3 * alpha / 100) ^ n * Orbit.orbitError R st := by
  have hr0 : (0 : ℚ) ≤ 1 - 3 * alpha / 100 := by linarith
  induction n with
  | zero =>
    refine ⟨h, le_of_eq ?_⟩
    rw [pow_zero, one_mul]
    rfl
  | succ n ih =>
    obtain ⟨hc, hb⟩ := ih
    obtain ⟨hc2, hmono, hgeo⟩ := orbit_tick_outer R alpha _ ha0 ha1 hc
    refine ⟨hc2, ?_⟩
    calc Orbit.orbitError R (Orbit.orbitRun R alpha st (n + 1))
        ≤ (1 - 3 * alpha / 100) * Orbit.orbitError R (Orbit.orbitRun R alpha st n) := hgeo
      _ ≤ (1 - 3 * alpha / 100) * ((1 - 3 * alpha / 100) ^ n * Orbit.orbitError R st) :=
          mul_le_mul_of_nonneg_left hb hr0
      _ = (1 - 3 * alpha / 100) ^ (n + 1) * Orbit.orbitError R st := by ring

lemma orbit_abs_bounds (R alpha d0 : ℚ) (ha0 : 0 < alpha) (ha1 : alpha ≤ 1) :
    (∀ n : Nat,
      |Orbit.orbitError R (Orbit.orbitRun R alpha { dist := d0, vel := 0 } (n + 1))| ≤
      |Orbit.orbitError R (Orbit.orbitRun R alpha { dist := d0, vel := 0 } n)|) ∧
    (∀ n : Nat,
      |Orbit.orbitError R (Orbit.orbitRun R alpha { dist := d0, vel := 0 } n)| ≤
      (1 - 3 * alpha / 100) ^ n *
        |Orbit.orbitError R ({ dist := d0, vel := 0 } : VIP.Orbit.RadialState)|) := by
  have ha0' : (0 : ℚ) ≤ alpha := le_of_lt ha0
  rcases le_or_lt R d0 with hge | hlt
  · -- start on or outside the target orbit
    have hcone : Orbit.OuterCone R { dist := d0, vel := 0 } := by
      refine ⟨?_, ?_, ?_⟩
      · show (0 : ℚ) ≤ d0 - R
        linarith
      · show -((d0 - R) / 4) ≤ (0 : ℚ)
        linarith
      · exact le_refl 0
    have habs : ∀ n : Nat,
        |Orbit.orbitError R (Orbit.orbitRun R alpha { dist := d0, vel := 0 } n)| =
        Orbit.orbitError R (Orbit.orbitRun R alpha { dist := d0, vel := 0 } n) := by
      intro n
      exact abs_of_nonneg (orbit_run_outer R alpha ha0' ha1 _ hcone n).1.1
    have h0 : |Orbit.orbitError R ({ dist := d0, vel := 0 } : VIP.Orbit.RadialState)| =
        Orbit.orbitError R ({ dist := d0, vel := 0 } : VIP.Orbit.RadialState) :=
      abs_of_nonneg (by show (0 : ℚ) ≤ d0 - R; linarith)
    refine ⟨fun n => ?_, fun n => ?_⟩
    · rw [habs n, habs (n + 1)]
      exact (orbit_tick_outer R alpha _ ha0' ha1
        (orbit_run_outer R alpha ha0' ha1 _ hcone n).1).2.1
    · rw [habs n, h0]
      exact (orbit_run_outer R alpha ha0' ha1 _ hcone n).2
  · -- start inside the target orbit: reflect through the orbit
    have hmk : ({ dist := d0, vel := 0 } : VIP.Orbit.RadialState) =
        Orbit.mirrorState R { dist := 2 * R - d0, vel := 0 } := by
      simp only [Orbit.mirrorState, Orbit.RadialState.mk.injEq]
      constructor <;> ring
    have hcone : Orbit.OuterCone R { dist := 2 * R - d0, vel := 0 } := by
      refine ⟨?_, ?_, ?_⟩
      · show (0 : ℚ) ≤ 2 * R - d0 - R
        linarith
      · show -((2 * R - d0 - R) / 4) ≤ (0 : ℚ)
        linarith
      · exact le_refl 0
    have habs : ∀ n : Nat,
        |Orbit.orbitError R (Orbit.orbitRun R alpha { dist := d0, vel := 0 } n)| =
        Orbit.orbitError R (Orbit.orbitRun R alpha { dist := 2 * R - d0, vel := 0 } n) := by
      intro n
      rw [hmk, orbit_run_mirror, orbit_error_mirror, abs_neg]
      exact abs_of_nonneg (orbit_run_outer R alpha ha0' ha1 _ hcone n).1.1
    have h0 : |Orbit.orbitError R ({ dist := d0, vel := 0 } : VIP.Orbit.RadialState)| =
        Orbit.orbitError R ({ dist := 2 * R - d0, vel := 0 } : VIP.Orbit.RadialState) := by
      show |d0 - R| = 2 * R - d0 - R
      rw [abs_of_nonpos (by linarith)]
      ring
    refine ⟨fun n => ?_, fun n => ?_⟩
    · rw [habs n, habs (n + 1)]
      exact (orbit_tick_outer R alpha _ ha0' ha1
        (orbit_run_outer R alpha ha0' ha1 _ hcone n).1).2.1
    · rw [habs n, h0]
      exact (orbit_run_outer R alpha ha0' ha1 _ hcone n).2

/-- C5: forceOrbit pulls a parented particle toward the category target
orbit radius (device 100, web 30, default 80): on the radial line through
its parent, with the orbital force as the only force and any constant
simulation alpha in (0, 1], the absolute distance error never increases,
decays at least geometrically with ratio 1 - 3 alpha / 100, and eventually
falls below every positive tolerance, whatever the starting distance. -/
theorem forceOrbit_orbital_convergence :
    Orbit.orbitRadii "device" = 100 ∧ Orbit.orbitRadii "web" = 30 ∧
    (∀ t : String, t ≠ "device" → t ≠ "web" → Orbit.orbitRadii t = 80) ∧
    (∀ R alpha d0 : ℚ, 0 < alpha → alpha ≤ 1 →
      (∀ n : Nat,
        |Orbit.orbitError R (Orbit.orbitRun R alpha { dist := d0, vel := 0 } (n + 1))| ≤
        |Orbit.orbitError R (Orbit.orbitRun R alpha { dist := d0, vel := 0 } n)|) ∧
      (∀ n : Nat,
        |Orbit.orbitError R (Orbit.orbitRun R alpha { dist := d0, vel := 0 } n)| ≤
        (1 - 3 * alpha / 100) ^ n *
          |Orbit.orbitError R ({ dist := d0, vel := 0 } : VIP.Orbit.RadialState)|) ∧
      (∀ ε : ℚ, 0 < ε → ∃ N : Nat, ∀ n : Nat, N ≤ n →
        |Orbit.orbitError R (Orbit.orbitRun R alpha { dist := d0, vel := 0 } n)| < ε)) := by
  refine ⟨rfl, rfl, ?_, ?_⟩
  · intro t h1 h2
    simp [Orbit.orbitRadii, h1, h2]
  · intro R alpha d0 ha0 ha1
    obtain ⟨hmono, hgeo⟩ := orbit_abs_bounds R alpha d0 ha0 ha1
    refine ⟨hmono, hgeo, ?_⟩
    intro ε hε
    set r : ℚ := 1 - 3 * alpha / 100 with hrdef
    set E : ℚ := |Orbit.orbitError R ({ dist := d0, vel := 0 } : VIP.Orbit.RadialState)| with hEdef
    have hr0 : (0 : ℚ) ≤ r := by rw [hrdef]; linarith
    have hr1 : r < 1 := by rw [hrdef]; linarith
    have hE0 : (0 : ℚ) ≤ E := abs_nonneg _
    have hgoal : 0 < ε / (E + 1) := div_pos hε (by linarith)
    obtain ⟨N, hN⟩ := exists_pow_lt_of_lt_one hgoal hr1
    refine ⟨N, fun n hn => ?_⟩
    have hpow : r ^ n ≤ r ^ N := pow_le_pow_of_le_one hr0 (le_of_lt hr1) hn
    have h1 : |Orbit.orbitError R (Orbit.orbitRun R alpha { dist := d0, vel := 0 } n)| ≤
        r ^ n * E := hgeo n
    have h2 : r ^ n * E ≤ r ^ N * E := mul_le_mul_of_nonneg_right hpow hE0
    have h3 : r ^ N * E < ε := by
      have hEpos : (0 : ℚ) < E + 1 := by linarith
      have hlt : r ^ N * (E + 1) < ε := (lt_div_iff₀ hEpos).mp hN
      nlinarith [pow_nonneg hr0 N]
    linarith

/-- Witness for C5: a device-category child released at ten times the target
radius keeps its error monotone over the first tick. -/
theorem forceOrbit_orbital_convergence_witness :
    |Orbit.orbitError 100 (Orbit.orbitRun 100 1 { dist := 1000, vel := 0 } 1)| ≤
    |Orbit.orbitError 100 (Orbit.orbitRun 100 1 { dist := 1000, vel := 0 } 0)| :=
  ((forceOrbit_orbital_convergence.2.2.2 100 1 1000 (by norm_num) (by norm_num)).1) 0

/- Assoc-map lemmas for the registry and GraphState embeddings. -/

lemma rec_rlookup_nil (k : String) : Rec.rlookup [] k = none := rfl

lemma rec_rlookup_cons (kv : String × Rec.Mesh) (rest : Rec.Registry) (k : String) :
    Rec.rlookup (kv :: rest) k = if kv.1 = k then some kv.2 else Rec.rlookup rest k := by
  by_cases h : kv.1 = k
  · unfold Rec.rlookup
    rw [List.find?_cons_of_pos _ (by simp [h]), if_pos h]
    rfl
  · unfold Rec.rlookup
    rw [List.find?_cons_of_neg _ (by simp [h]), if_neg h]

lemma rec_rlookup_rset_self (reg : Rec.Registry) (k : String) (m : Rec.Mesh) :
    Rec.rlookup (Rec.rset reg k m) k = some m := by
  induction reg with
  | nil => simp [Rec.rset, rec_rlookup_cons]
  | cons kv rest ih =>
    by_cases h : kv.1 = k
    · simp [Rec.rset, h, rec_rlookup_cons]
    · simp [Rec.rset, h, rec_rlookup_cons, ih]

lemma rec_rlookup_rset_ne (reg : Rec.Registry) (k k2 : String) (m : Rec.Mesh)
    (h : k2 ≠ k) :
    Rec.rlookup (Rec.rset reg k m) k2 = Rec.rlookup reg k2 := by
  induction reg with
  | nil => simp [Rec.rset, rec_rlookup_cons, rec_rlookup_nil, Ne.symm h]
  | cons kv rest ih =>
    by_cases hh : kv.1 = k
    · simp [Rec.rset, hh, rec_rlookup_cons, Ne.symm h]
    · simp [Rec.rset, hh, rec_rlookup_cons, ih]

lemma rec_rlookup_rdel_ne (reg : Rec.Registry) (k k2 : String) (h : k2 ≠ k) :
    Rec.rlookup (Rec.rdel reg k) k2 = Rec.rlookup reg k2 := by
  induction reg with
  | nil => rfl
  | cons kv rest ih =>
    by_cases hh : kv.1 = k
    · simp [Rec.rdel, hh, rec_rlookup_cons, Ne.symm h, ih]
    · simp [Rec.rdel, hh, rec_rlookup_cons, ih]

lemma rec_rlookup_eq_none_iff (reg : Rec.Registry) (k : String) :
    Rec.rlookup reg k = none ↔ k ∉ reg.map Prod.fst := by
  induction reg with
  | nil => simp [rec_rlookup_nil]
  | cons kv rest ih =>
    by_cases h : kv.1 = k
    · simp [rec_rlookup_cons, h]
    · simp [rec_rlookup_cons, h, ih, Ne.symm h]

lemma rec_rset_mem_keys (reg : Rec.Registry) (k : String) (m : Rec.Mesh) (x : String)
    (hx : x ∈ (Rec.rset reg k m).map Prod.fst) :
    x ∈ reg.map Prod.fst ∨ x = k := by
  induction reg with
  | nil =>
    simp only [Rec.rset, List.map_cons, List.map_nil, List.mem_singleton] at hx
    exact Or.inr hx
  | cons kv rest ih =>
    by_cases hh : kv.1 = k
    · rw [Rec.rset, if_pos (by simp [hh])] at hx
      rw [List.map_cons, List.mem_cons] at hx
      rcases hx with h1 | h1
      · exact Or.inr h1
      · exact Or.inl (by rw [List.map_cons, List.mem_cons]; exact Or.inr h1)
    · rw [Rec.rset, if_neg (by simp [hh])] at hx
      rw [List.map_cons, List.mem_cons] at hx
      rcases hx with h1 | h1
      · exact Or.inl (by rw [List.map_cons, List.mem_cons]; exact Or.inl h1)
      · rcases ih h1 with h2 | h2
        · exact Or.inl (by rw [List.map_cons, List.mem_cons]; exact Or.inr h2)
        · exact Or.inr h2

lemma rec_rset_nodup (reg : Rec.Registry) (k : String) (m : Rec.Mesh)
    (h : (reg.map Prod.fst).Nodup) :
    ((Rec.rset reg k m).map Prod.fst).Nodup := by
  induction reg with
  | nil => simp [Rec.rset]
  | cons kv rest ih =>
    rw [List.map_cons, List.nodup_cons] at h
    by_cases hh : kv.1 = k
    · simp only [Rec.rset, beq_iff_eq, hh, if_true]
      rw [List.map_cons, List.nodup_cons]
      exact ⟨by simpa [hh] using h.1, h.2⟩
    · simp only [Rec.rset, beq_iff_eq, hh, if_false]
      rw [List.map_cons, List.nodup_cons]
      refine ⟨?_, ih h.2⟩
      intro hmem
      rcases rec_rset_mem_keys rest k m kv.1 hmem with h2 | h2
      · exact h.1 h2
      · exact hh h2

lemma rec_rdel_mem_keys (reg : Rec.Registry) (k x : String)
    (hx : x ∈ (Rec.rdel reg k).map Prod.fst) :
    x ∈ reg.map Prod.fst := by
  induction reg with
  | nil => exact hx
  | cons kv rest ih =>
    by_cases hh : kv.1 = k
    · rw [Rec.rdel, if_pos (by simp [hh])] at hx
      exact List.mem_cons_of_mem _ (ih hx)
    · rw [Rec.rdel, if_neg (by simp [hh]), List.map_cons, List.mem_cons] at hx
      rcases hx with h1 | h1
      · rw [List.map_cons, List.mem_cons]
        exact Or.inl h1
      · exact List.mem_cons_of_mem _ (ih h1)

lemma rec_rdel_nodup (reg : Rec.Registry) (k : String)
    (h : (reg.map Prod.fst).Nodup) :
    ((Rec.rdel reg k).map Prod.fst).Nodup := by
  induction reg with
  | nil => simp [Rec.rdel]
  | cons kv rest ih =>
    rw [List.map_cons, List.nodup_cons] at h
    by_cases hh : kv.1 = k
    · simp only [Rec.rdel, beq_iff_eq, hh, if_true]
      exact ih h.2
    · simp only [Rec.rdel, beq_iff_eq, hh, if_false, List.map_cons, List.nodup_cons]
      exact ⟨fun hmem => h.1 (rec_rdel_mem_keys rest k kv.1 hmem), ih h.2⟩

lemma rec_getNode_nil (k : String) : Rec.getNode [] k = none := rfl

lemma rec_getNode_cons (kv : String × Rec.NodeData) (rest : Rec.GraphState) (k : String) :
    Rec.getNode (kv :: rest) k = if kv.1 = k then some kv.2 else Rec.getNode rest k := by
  by_cases h : kv.1 = k
  · unfold Rec.getNode
    rw [List.find?_cons_of_pos _ (by simp [h]), if_pos h]
    rfl
  · unfold Rec.getNode
    rw [List.find?_cons_of_neg _ (by simp [h]), if_neg h]

lemma rec_mergeRecord_id (old d : Rec.NodeData) : (Rec.mergeRecord old d).id = d.id := rfl

lemma rec_getNode_addOrUpdate_self (st : Rec.GraphState) (d : Rec.NodeData) :
    ∃ r, Rec.getNode (Rec.addOrUpdateNode st d) d.id = some r ∧ r.id = d.id := by
  induction st with
  | nil =>
    exact ⟨Rec.mergeRecord (Rec.emptyRecord d.id) d,
      by simp [Rec.addOrUpdateNode, rec_getNode_cons], rfl⟩
  | cons kv rest ih =>
    by_cases h : kv.1 = d.id
    · exact ⟨Rec.mergeRecord kv.2 d,
        by rw [Rec.addOrUpdateNode, if_pos (by simp [h])]
           simp [rec_getNode_cons, h], rfl⟩
    · obtain ⟨r, hr, hid⟩ := ih
      refine ⟨r, ?_, hid⟩
      rw [Rec.addOrUpdateNode, if_neg (by simp [h]), rec_getNode_cons, if_neg h]
      exact hr

lemma rec_getNode_addOrUpdate_ne (st : Rec.GraphState) (d : Rec.NodeData) (k : String)
    (h : k ≠ d.id) :
    Rec.getNode (Rec.addOrUpdateNode st d) k = Rec.getNode st k := by
  induction st with
  | nil => simp [Rec.addOrUpdateNode, rec_getNode_cons, rec_getNode_nil, Ne.symm h]
  | cons kv rest ih =>
    by_cases hh : kv.1 = d.id
    · simp [Rec.addOrUpdateNode, hh, rec_getNode_cons, Ne.symm h]
    · simp [Rec.addOrUpdateNode, hh, rec_getNode_cons, ih]

lemma rec_getNode_addOrUpdate_isSome (st : Rec.GraphState) (d : Rec.NodeData) (k : String) :
    (Rec.getNode (Rec.addOrUpdateNode st d) k).isSome ↔
      ((Rec.getNode st k).isSome ∨ k = d.id) := by
  by_cases h : k = d.id
  · subst h
    obtain ⟨r, hr, _⟩ := rec_getNode_addOrUpdate_self st d
    simp [hr]
  · rw [rec_getNode_addOrUpdate_ne st d k h]
    simp [h]

lemma rec_getNode_setRecord_ne (st : Rec.GraphState) (id k : String) (r : Rec.NodeData)
    (h : k ≠ id) :
    Rec.getNode (Rec.setRecord st id r) k = Rec.getNode st k := by
  induction st with
  | nil => rfl
  | cons kv rest ih =>
    by_cases hh : kv.1 = id
    · simp [Rec.setRecord, hh, rec_getNode_cons, Ne.symm h]
    · simp [Rec.setRecord, hh, rec_getNode_cons, ih]

lemma rec_getNode_setRecord_isSome (st : Rec.GraphState) (id k : String) (r : Rec.NodeData) :
    (Rec.getNode (Rec.setRecord st id r) k).isSome = (Rec.getNode st k).isSome := by
  induction st with
  | nil => rfl
  | cons kv rest ih =>
    by_cases hh : kv.1 = id
    · rw [Rec.setRecord, if_pos (by simp [hh])]
      by_cases h2 : kv.1 = k
      · simp [rec_getNode_cons, h2]
      · simp [rec_getNode_cons, h2]
    · rw [Rec.setRecord, if_neg (by simp [hh])]
      by_cases h2 : kv.1 = k
      · simp [rec_getNode_cons, h2]
      · simp [rec_getNode_cons, h2, ih]

lemma rec_getNode_setRecord_self (st : Rec.GraphState) (id : String) (r : Rec.NodeData)
    (h : (Rec.getNode st id).isSome) :
    Rec.getNode (Rec.setRecord st id r) id = some r := by
  induction st with
  | nil => simp [rec_getNode_nil] at h
  | cons kv rest ih =>
    by_cases hh : kv.1 = id
    · simp [Rec.setRecord, hh, rec_getNode_cons]
    · rw [rec_getNode_cons, if_neg hh] at h
      simp [Rec.setRecord, hh, rec_getNode_cons, ih h]

lemma rec_strStartsWith_append (a b : String) : Rec.strStartsWith (a ++ b) a = true := by
  simp only [Rec.strStartsWith, String.data_append]
  rw [List.take_left]
  simp

lemma rec_filter_of_filter_not {α : Type} (p : α → Bool) (l : List α) :
    (l.filter (fun a => !p a)).filter p = [] := by
  induction l with
  | nil => rfl
  | cons a l ih =>
    by_cases h : p a
    · simp [List.filter_cons, h, ih]
    · simp [List.filter_cons, h, ih]

lemma rec_enum_map_snd_comp {α β : Type} (l : List α) (f : α → β) :
    l.enum.map (fun ip => f ip.2) = l.map f := by
  have h1 : l.enum.map (fun ip => f ip.2) = (l.enum.map Prod.snd).map f := by
    rw [List.map_map]
    rfl
  rw [h1, List.enum_map_snd]

lemma rec_spawn_children_spec (reg : Rec.Registry) (parent : Rec.Mesh) (ports : List Nat) :
    (Rec.spawnChildNodes reg parent ports).2.userData.id = parent.userData.id ∧
    ((Rec.spawnChildNodes reg parent ports).2.children.filter
        (fun c => Rec.strStartsWith c.name (Rec.portStem parent.userData.id))).map Rec.Mesh.name
      = ports.map (Rec.portChildName parent.userData.id) ∧
    ((Rec.spawnChildNodes reg parent ports).2.children.filter
        (fun c => Rec.strStartsWith c.name (Rec.portStem parent.userData.id))).map Rec.Mesh.position
      = ports.enum.map (fun ip => some (Rec.Pos.portOrbit ip.1 ports.length 40)) := by
  obtain ⟨n, u, pos, cs⟩ := parent
  have hmoons : ∀ c ∈ (ports.enum.map (fun ip =>
      Rec.childMesh u.id ip.2 ip.1 ports.length)),
      Rec.strStartsWith c.name (Rec.portStem u.id) = true := by
    intro c hc
    obtain ⟨ip, _, rfl⟩ := List.mem_map.mp hc
    exact rec_strStartsWith_append (Rec.portStem u.id) (toString ip.2)
  refine ⟨rfl, ?_, ?_⟩
  · show ((cs.filter (fun c => !Rec.strStartsWith c.name (Rec.portStem u.id))
        ++ ports.enum.map (fun ip => Rec.childMesh u.id ip.2 ip.1 ports.length)).filter
          (fun c => Rec.strStartsWith c.name (Rec.portStem u.id))).map Rec.Mesh.name
      = ports.map (Rec.portChildName u.id)
    rw [List.filter_append, rec_filter_of_filter_not, List.nil_append,
      List.filter_eq_self.mpr hmoons, List.map_map]
    exact rec_enum_map_snd_comp ports (Rec.portChildName u.id)
  · show ((cs.filter (fun c => !Rec.strStartsWith c.name (Rec.portStem u.id))
        ++ ports.enum.map (fun ip => Rec.childMesh u.id ip.2 ip.1 ports.length)).filter
          (fun c => Rec.strStartsWith c.name (Rec.portStem u.id))).map Rec.Mesh.position
      = ports.enum.map (fun ip => some (Rec.Pos.portOrbit ip.1 ports.length 40))
    rw [List.filter_append, rec_filter_of_filter_not, List.nil_append,
      List.filter_eq_self.mpr hmoons, List.map_map]
    rfl

/-- C1 counterexample: after updateNodes with ports = [22, 80] and a later
updateNodes with ports = [22] on the same device, TWO port children remain,
not one: the respawn is skipped because a child for the first listed port
(22) already exists, so the stale port-80 moon survives. -/
theorem port_children_respawn_counterexample :
    (Rec.portChildrenOf
        (Rec.updateNodes (Rec.updateNodes Rec.emptyManager [Rec.deviceSnapshot [22, 80]])
          [Rec.deviceSnapshot [22]]) "10.0.0.5").length = 2 ∧
    ¬ (Rec.portChildrenOf
        (Rec.updateNodes (Rec.updateNodes Rec.emptyManager [Rec.deviceSnapshot [22, 80]])
          [Rec.deviceSnapshot [22]]) "10.0.0.5").length = 1 := by
  constructor
  · decide
  · decide

/-- C1 (amended): updating a fresh device with ports = [22, 80] spawns
exactly two port children, evenly spaced on the fixed-radius (40) circular
orbit (angles 0/2 and 1/2 of the full turn); a later updateNodes with
ports = [22] leaves BOTH children in place (the respawn runs only when no
child exists for the first listed port); and whenever spawnChildNodes does
run, it removes all existing port children and creates exactly one child
per port, evenly spaced on the fixed-radius orbit. -/
theorem port_children_respawn_amended :
    ((Rec.portChildrenOf (Rec.updateNodes Rec.emptyManager [Rec.deviceSnapshot [22, 80]])
        "10.0.0.5").map Rec.Mesh.name
      = ["10.0.0.5-port-22", "10.0.0.5-port-80"] ∧
     (Rec.portChildrenOf (Rec.updateNodes Rec.emptyManager [Rec.deviceSnapshot [22, 80]])
        "10.0.0.5").map Rec.Mesh.position
      = [some (Rec.Pos.portOrbit 0 2 40), some (Rec.Pos.portOrbit 1 2 40)]) ∧
    (Rec.portChildrenOf
        (Rec.updateNodes (Rec.updateNodes Rec.emptyManager [Rec.deviceSnapshot [22, 80]])
          [Rec.deviceSnapshot [22]]) "10.0.0.5").map Rec.Mesh.name
      = ["10.0.0.5-port-22", "10.0.0.5-port-80"] ∧
    (∀ (reg : Rec.Registry) (parent : Rec.Mesh) (ports : List Nat),
      ((Rec.spawnChildNodes reg parent ports).2.children.filter
          (fun c => Rec.strStartsWith c.name (Rec.portStem parent.userData.id))).map
            Rec.Mesh.name
        = ports.map (Rec.portChildName parent.userData.id) ∧
      ((Rec.spawnChildNodes reg parent ports).2.children.filter
          (fun c => Rec.strStartsWith c.name (Rec.portStem parent.userData.id))).map
            Rec.Mesh.position
        = ports.enum.map (fun ip => some (Rec.Pos.portOrbit ip.1 ports.length 40))) := by
  refine ⟨⟨by decide, by decide⟩, by decide, ?_⟩
  intro reg parent ports
  exact ⟨(rec_spawn_children_spec reg parent ports).2.1,
    (rec_spawn_children_spec reg parent ports).2.2⟩

lemma rec_applyPending_no_flags (reg : Rec.Registry)
    (h : ∀ kv ∈ reg, kv.2.userData.needsCAUpdate = false) :
    Rec.applyPendingCAUpdates reg = reg := by
  have hfind : reg.find? (fun kv =>
      kv.2.userData.needsCAUpdate && !kv.2.userData.caProcessing
        && !kv.2.userData.caEnabled) = none :=
    List.find?_eq_none.mpr (fun kv hkv => by simp [h kv hkv])
  unfold Rec.applyPendingCAUpdates
  rw [hfind]

/-- C10: an incoming node whose id carries one of the five scan markers is
merged into GraphState by updateNodes, but reconciliation skips it: no
render object is created for it and the registry is left unchanged (stated
for a manager with no hydration already pending, so that the batch pass is
idle too). -/
theorem scan_ids_not_rendered (m : Rec.Manager) (nd : Rec.NodeData)
    (hscan : Rec.scanId nd.id = true)
    (hreg : Rec.rlookup m.registry nd.id = none)
    (hch : m.changed = [])
    (hflags : ∀ kv ∈ m.registry, kv.2.userData.needsCAUpdate = false) :
    (Rec.getNode (Rec.updateNodes m [nd]).state nd.id).isSome ∧
    (Rec.updateNodes m [nd]).registry = m.registry := by
  obtain ⟨r, hr, hid⟩ := rec_getNode_addOrUpdate_self m.state nd
  have hm1st : (Rec.mergeStep m nd).state = Rec.addOrUpdateNode m.state nd := rfl
  have hm1ch : (Rec.mergeStep m nd).changed = [nd.id] := by
    unfold Rec.mergeStep
    simp [hch]
  have hm1reg : (Rec.mergeStep m nd).registry = m.registry := by
    unfold Rec.mergeStep
    simp only [hreg]
    split <;> rfl
  have hrec : Rec.reconcileSceneMeshes [nd.id] (Rec.addOrUpdateNode m.state nd) m.registry
      = (Rec.addOrUpdateNode m.state nd, m.registry) := by
    unfold Rec.reconcileSceneMeshes
    simp only [List.isEmpty_cons, Bool.false_eq_true, if_false, List.foldl_cons,
      List.foldl_nil]
    unfold Rec.reconcileOne
    rw [hr]
    simp [hid, hscan]
  have hall : Rec.updateNodes m [nd] =
      { state := Rec.addOrUpdateNode m.state nd, registry := m.registry, changed := [] } := by
    unfold Rec.updateNodes
    simp only [List.foldl_cons, List.foldl_nil]
    rw [hm1ch, hm1st, hm1reg, hrec]
    rw [rec_applyPending_no_flags m.registry hflags]
  rw [hall]
  exact ⟨by rw [hr]; rfl, rfl⟩

/-- Witness for C10 at a concrete portscan node on a fresh manager. -/
theorem scan_ids_not_rendered_witness :
    (Rec.getNode (Rec.updateNodes Rec.emptyManager
        [{ id := "portscan-10.0.0.5" }]).state "portscan-10.0.0.5").isSome ∧
    (Rec.updateNodes Rec.emptyManager [{ id := "portscan-10.0.0.5" }]).registry
      = Rec.emptyManager.registry :=
  scan_ids_not_rendered Rec.emptyManager { id := "portscan-10.0.0.5" } (by decide) rfl rfl
    (by simp [Rec.emptyManager])

/- Registry invariant lemmas leading to the amended registry/GraphState
correspondence. -/

lemma rec_rlookup_rdel_self (reg : Rec.Registry) (k : String) :
    Rec.rlookup (Rec.rdel reg k) k = none := by
  induction reg with
  | nil => rfl
  | cons kv rest ih =>
    by_cases hh : kv.1 = k
    · rw [Rec.rdel, if_pos (by simp [hh])]
      exact ih
    · rw [Rec.rdel, if_neg (by simp [hh]), rec_rlookup_cons, if_neg hh]
      exact ih

lemma rec_foldl_rdel_lookup_ne (cs : List Rec.Mesh) (reg : Rec.Registry) (k : String)
    (h : ∀ c ∈ cs, c.userData.id ≠ k) :
    Rec.rlookup (cs.foldl (fun r c => Rec.rdel r c.userData.id) reg) k
      = Rec.rlookup reg k := by
  induction cs generalizing reg with
  | nil => rfl
  | cons c cs ih =>
    rw [List.foldl_cons, ih _ (fun d hd => h d (List.mem_cons_of_mem c hd)),
      rec_rlookup_rdel_ne _ _ _ (fun he => h c (List.mem_cons_self c cs) he.symm)]

lemma rec_foldl_rdel_lookup_cases (cs : List Rec.Mesh) (reg : Rec.Registry) (k : String)
    (mesh : Rec.Mesh)
    (h : Rec.rlookup (cs.foldl (fun r c => Rec.rdel r c.userData.id) reg) k = some mesh) :
    Rec.rlookup reg k = some mesh := by
  induction cs generalizing reg with
  | nil => exact h
  | cons c cs ih =>
    rw [List.foldl_cons] at h
    have h2 := ih _ h
    by_cases hk : k = c.userData.id
    · rw [hk, rec_rlookup_rdel_self] at h2
      exact absurd h2 (by simp)
    · rwa [rec_rlookup_rdel_ne _ _ _ hk] at h2

lemma rec_foldl_rdel_nodup (cs : List Rec.Mesh) (reg : Rec.Registry)
    (h : (reg.map Prod.fst).Nodup) :
    ((cs.foldl (fun r c => Rec.rdel r c.userData.id) reg).map Prod.fst).Nodup := by
  induction cs generalizing reg with
  | nil => exact h
  | cons c cs ih => exact ih _ (rec_rdel_nodup _ _ h)

lemma rec_foldl_rset_lookup_ne (cs : List Rec.Mesh) (reg : Rec.Registry) (k : String)
    (h : ∀ c ∈ cs, c.userData.id ≠ k) :
    Rec.rlookup (cs.foldl (fun r c => Rec.rset r c.userData.id c) reg) k
      = Rec.rlookup reg k := by
  induction cs generalizing reg with
  | nil => rfl
  | cons c cs ih =>
    rw [List.foldl_cons, ih _ (fun d hd => h d (List.mem_cons_of_mem c hd)),
      rec_rlookup_rset_ne _ _ _ _ (fun he => h c (List.mem_cons_self c cs) he.symm)]

lemma rec_foldl_rset_lookup_cases (cs : List Rec.Mesh) (reg : Rec.Registry) (k : String)
    (mesh : Rec.Mesh)
    (h : Rec.rlookup (cs.foldl (fun r c => Rec.rset r c.userData.id c) reg) k = some mesh) :
    Rec.rlookup reg k = some mesh ∨ (mesh ∈ cs ∧ mesh.userData.id = k) := by
  induction cs generalizing reg with
  | nil => exact Or.inl h
  | cons c cs ih =>
    rw [List.foldl_cons] at h
    rcases ih _ h with h2 | h2
    · by_cases hk : k = c.userData.id
      · rw [hk, rec_rlookup_rset_self] at h2
        obtain rfl : c = mesh := by simpa using h2
        exact Or.inr ⟨List.mem_cons_self _ _, hk.symm⟩
      · rw [rec_rlookup_rset_ne _ _ _ _ hk] at h2
        exact Or.inl h2
    · exact Or.inr ⟨List.mem_cons_of_mem c h2.1, h2.2⟩

lemma rec_foldl_rset_nodup (cs : List Rec.Mesh) (reg : Rec.Registry)
    (h : (reg.map Prod.fst).Nodup) :
    ((cs.foldl (fun r c => Rec.rset r c.userData.id c) reg).map Prod.fst).Nodup := by
  induction cs generalizing reg with
  | nil => exact h
  | cons c cs ih => exact ih _ (rec_rset_nodup _ _ _ h)

lemma rec_mem_rlookup (reg : Rec.Registry) (hnd : (reg.map Prod.fst).Nodup)
    (k : String) (v : Rec.Mesh) (hmem : (k, v) ∈ reg) :
    Rec.rlookup reg k = some v := by
  induction reg with
  | nil => exact absurd hmem (by simp)
  | cons kv rest ih =>
    rw [List.map_cons, List.nodup_cons] at hnd
    rcases List.mem_cons.mp hmem with h1 | h1
    · rw [← h1, rec_rlookup_cons, if_pos rfl]
    · by_cases hh : kv.1 = k
      · exact absurd (hh ▸ (List.mem_map_of_mem Prod.fst h1)) hnd.1
      · rw [rec_rlookup_cons, if_neg hh]
        exact ih hnd.2 h1

lemma rec_getNode_isSome_iff_mem_keys (st : Rec.GraphState) (k : String) :
    (Rec.getNode st k).isSome ↔ k ∈ st.map Prod.fst := by
  induction st with
  | nil => simp [rec_getNode_nil]
  | cons kv rest ih =>
    by_cases h : kv.1 = k
    · simp [rec_getNode_cons, h]
    · simp [rec_getNode_cons, h, ih, Ne.symm h]

lemma rec_not_plain_of_moon_name (p : String) (port : Nat) :
    ¬Rec.PlainId (Rec.portChildName p port) :=
  fun hpl => hpl p port rfl

lemma rec_spawn_reg_spec (reg : Rec.Registry) (parent : Rec.Mesh) (ports : List Nat)
    (hch : ∀ c ∈ parent.children, ∃ port : Nat,
      c.name = Rec.portChildName parent.userData.id port ∧ c.userData.id = c.name) :
    (∀ k, Rec.PlainId k →
      Rec.rlookup (Rec.spawnChildNodes reg parent ports).1 k = Rec.rlookup reg k) ∧
    ((reg.map Prod.fst).Nodup →
      (((Rec.spawnChildNodes reg parent ports).1).map Prod.fst).Nodup) ∧
    (∀ k mesh, Rec.rlookup (Rec.spawnChildNodes reg parent ports).1 k = some mesh →
      Rec.rlookup reg k = some mesh ∨
        (mesh.userData.id = k ∧ mesh.children = [] ∧ ¬Rec.PlainId k)) ∧
    (Rec.spawnChildNodes reg parent ports).2.userData.id = parent.userData.id ∧
    (∀ c ∈ (Rec.spawnChildNodes reg parent ports).2.children, ∃ port : Nat,
      c.name = Rec.portChildName parent.userData.id port ∧ c.userData.id = c.name) := by
  obtain ⟨n, u, pos, cs⟩ := parent
  have hrm : ∀ c ∈ cs.filter (fun c => Rec.strStartsWith c.name (Rec.portStem u.id)),
      ∃ port : Nat, c.userData.id = Rec.portChildName u.id port := by
    intro c hc
    obtain ⟨port, hname, hid⟩ := hch c (List.mem_of_mem_filter hc)
    exact ⟨port, hid.trans hname⟩
  have hmo : ∀ c ∈ ports.enum.map (fun ip => Rec.childMesh u.id ip.2 ip.1 ports.length),
      ∃ port : Nat, c.userData.id = Rec.portChildName u.id port := by
    intro c hc
    obtain ⟨ip, _, rfl⟩ := List.mem_map.mp hc
    exact ⟨ip.2, rfl⟩
  refine ⟨?_, ?_, ?_, rfl, ?_⟩
  · intro k hk
    show Rec.rlookup ((ports.enum.map (fun ip => Rec.childMesh u.id ip.2 ip.1 ports.length)).foldl
        (fun r c => Rec.rset r c.userData.id c)
        ((cs.filter (fun c => Rec.strStartsWith c.name (Rec.portStem u.id))).foldl
          (fun r c => Rec.rdel r c.userData.id) reg)) k = Rec.rlookup reg k
    rw [rec_foldl_rset_lookup_ne _ _ _ (fun c hc he => by
        obtain ⟨port, hid⟩ := hmo c hc
        exact hk u.id port (he.symm.trans hid)),
      rec_foldl_rdel_lookup_ne _ _ _ (fun c hc he => by
        obtain ⟨port, hid⟩ := hrm c hc
        exact hk u.id port (he.symm.trans hid))]
  · intro hnd
    exact rec_foldl_rset_nodup _ _ (rec_foldl_rdel_nodup _ _ hnd)
  · intro k mesh h
    rcases rec_foldl_rset_lookup_cases _ _ _ _ h with h2 | h2
    · exact Or.inl (rec_foldl_rdel_lookup_cases _ _ _ _ h2)
    · obtain ⟨hmem, hid⟩ := h2
      obtain ⟨ip, _, rfl⟩ := List.mem_map.mp hmem
      exact Or.inr ⟨hid, rfl, hid ▸ rec_not_plain_of_moon_name u.id ip.2⟩
  · intro c hc
    rcases List.mem_append.mp hc with h1 | h1
    · exact hch c (List.mem_of_mem_filter h1)
    · obtain ⟨ip, _, rfl⟩ := List.mem_map.mp h1
      exact ⟨ip.2, rfl, rfl⟩

lemma rec_portStep_spec (st : Rec.GraphState) (reg : Rec.Registry) (id : String)
    (hnd : (reg.map Prod.fst).Nodup)
    (hkid : ∀ k mesh, Rec.rlookup reg k = some mesh → mesh.userData.id = k)
    (hcn : ∀ k mesh, Rec.rlookup reg k = some mesh → ∀ c ∈ mesh.children,
      ∃ port : Nat, c.name = Rec.portChildName k port ∧ c.userData.id = c.name) :
    (Rec.portStep st reg id).1 = st ∧
    (((Rec.portStep st reg id).2.map Prod.fst).Nodup) ∧
    (∀ k mesh, Rec.rlookup (Rec.portStep st reg id).2 k = some mesh →
      mesh.userData.id = k) ∧
    (∀ k mesh, Rec.rlookup (Rec.portStep st reg id).2 k = some mesh →
      ∀ c ∈ mesh.children,
        ∃ port : Nat, c.name = Rec.portChildName k port ∧ c.userData.id = c.name) ∧
    (∀ k, Rec.PlainId k →
      ((Rec.rlookup (Rec.portStep st reg id).2 k).isSome
        ↔ (Rec.rlookup reg k).isSome)) := by
  unfold Rec.portStep
  rcases hm : Rec.rlookup reg id with _ | mesh
  · exact ⟨rfl, hnd, hkid, hcn, fun k _ => Iff.rfl⟩
  · rcases hp : mesh.userData.ports with _ | pl
    · simp only [hp]
      exact ⟨trivial, hnd, hkid, hcn, fun k _ => trivial⟩
    rcases pl with _ | ⟨p, ps⟩
    · simp only [hp]
      exact ⟨trivial, hnd, hkid, hcn, fun k _ => trivial⟩
    simp only [hp]
    by_cases hg : (mesh.getObjectByName (Rec.portChildName mesh.userData.id p)).isSome
    · simp only [hg, if_true]
      exact ⟨trivial, hnd, hkid, hcn, fun k _ => trivial⟩
    simp only [hg, if_false, Bool.false_eq_true]
    have hid : mesh.userData.id = id := hkid id mesh hm
    have hch : ∀ c ∈ mesh.children, ∃ port : Nat,
        c.name = Rec.portChildName mesh.userData.id port ∧ c.userData.id = c.name := by
      rw [hid]
      exact hcn id mesh hm
    obtain ⟨hplain, hnodup, hcases, hpid, hpch⟩ := rec_spawn_reg_spec reg mesh (p :: ps) hch
    have hkey : (Rec.spawnChildNodes reg mesh (p :: ps)).2.userData.id = id := hpid.trans hid
    refine ⟨trivial, ?_, ?_, ?_, ?_⟩
    · rw [hkey]
      exact rec_rset_nodup _ _ _ (hnodup hnd)
    · intro k mesh2 hlk
      rw [hkey] at hlk
      by_cases hk : k = id
      · subst hk
        rw [rec_rlookup_rset_self] at hlk
        obtain rfl : (Rec.spawnChildNodes reg mesh (p :: ps)).2 = mesh2 := by simpa using hlk
        exact hkey
      · rw [rec_rlookup_rset_ne _ _ _ _ hk] at hlk
        rcases hcases k mesh2 hlk with h2 | h2
        · exact hkid k mesh2 h2
        · exact h2.1
    · intro k mesh2 hlk
      rw [hkey] at hlk
      by_cases hk : k = id
      · subst hk
        rw [rec_rlookup_rset_self] at hlk
        obtain rfl : (Rec.spawnChildNodes reg mesh (p :: ps)).2 = mesh2 := by simpa using hlk
        intro c hc
        obtain ⟨port, hname, hcid⟩ := hpch c hc
        exact ⟨port, by rw [hname, hid], hcid⟩
      · rw [rec_rlookup_rset_ne _ _ _ _ hk] at hlk
        rcases hcases k mesh2 hlk with h2 | h2
        · exact hcn k mesh2 h2
        · intro c hc
          rw [h2.2.1] at hc
          exact absurd hc (by simp)
    · intro k hk
      rw [hkey]
      by_cases hkq : k = id
      · subst hkq
        rw [rec_rlookup_rset_self]
        simp [hm]
      · rw [rec_rlookup_rset_ne _ _ _ _ hkq, hplain k hk]

lemma rec_placeRecord_id (b : Bool) (ns : Rec.NodeData) :
    (Rec.placeRecord b ns).id = ns.id := by
  unfold Rec.placeRecord
  repeat' split
  all_goals rfl

lemma rec_createMeshFor_id (reg : Rec.Registry) (r : Rec.NodeData) :
    (Rec.createMeshFor reg r).userData.id = r.id := by
  unfold Rec.createMeshFor
  split
  all_goals rfl

lemma rec_createMeshFor_children (reg : Rec.Registry) (r : Rec.NodeData) :
    (Rec.createMeshFor reg r).children = [] := by
  unfold Rec.createMeshFor
  split
  all_goals rfl

lemma rec_updateMeshFor_id (reg : Rec.Registry) (ns : Rec.NodeData) (mesh : Rec.Mesh) :
    (Rec.updateMeshFor reg ns mesh).userData.id = ns.id := by
  simp only [Rec.updateMeshFor]
  repeat' split
  all_goals rfl

lemma rec_updateMeshFor_children (reg : Rec.Registry) (ns : Rec.NodeData)
    (mesh : Rec.Mesh) :
    (Rec.updateMeshFor reg ns mesh).children = mesh.children := by
  simp only [Rec.updateMeshFor]
  repeat' split
  all_goals rfl

lemma rec_stateKey_setRecord (st : Rec.GraphState) (id : String) (r : Rec.NodeData)
    (h : Rec.StateKey st) (hr : r.id = id) :
    Rec.StateKey (Rec.setRecord st id r) := by
  intro k r2 h2
  by_cases hk : k = id
  · subst hk
    by_cases hpres : (Rec.getNode st k).isSome
    · rw [rec_getNode_setRecord_self st k r hpres] at h2
      obtain rfl : r = r2 := by simpa using h2
      exact hr
    · have hS := rec_getNode_setRecord_isSome st k k r
      rw [h2] at hS
      exact absurd hS.symm (by simpa using hpres)
  · rw [rec_getNode_setRecord_ne st id k r hk] at h2
    exact h k r2 h2

lemma rec_statePlain_setRecord (st : Rec.GraphState) (id : String) (r : Rec.NodeData)
    (h : Rec.StatePlain st) :
    Rec.StatePlain (Rec.setRecord st id r) := by
  intro k hk
  rw [rec_getNode_setRecord_isSome] at hk
  exact h k hk

lemma rec_reconcileCreate_spec (routerExists : Bool) (st : Rec.GraphState)
    (reg : Rec.Registry) (ns : Rec.NodeData)
    (hkey : Rec.StateKey st) (hplain : Rec.StatePlain st) (hwf : Rec.RegWF reg) :
    Rec.StateKey (Rec.reconcileCreate routerExists st reg ns).1 ∧
    Rec.StatePlain (Rec.reconcileCreate routerExists st reg ns).1 ∧
    (∀ k, (Rec.getNode (Rec.reconcileCreate routerExists st reg ns).1 k).isSome
      = (Rec.getNode st k).isSome) ∧
    Rec.RegWF (Rec.reconcileCreate routerExists st reg ns).2 ∧
    (∀ k, Rec.PlainId k →
      ((Rec.rlookup (Rec.reconcileCreate routerExists st reg ns).2 k).isSome ↔
        ((Rec.rlookup reg k).isSome ∨ k = ns.id))) := by
  obtain ⟨hnd, hkid, hcn⟩ := hwf
  simp only [Rec.reconcileCreate]
  have hnd2 : ((Rec.rset reg ns.id
      (Rec.createMeshFor reg (Rec.placeRecord routerExists ns))).map Prod.fst).Nodup :=
    rec_rset_nodup _ _ _ hnd
  have hkid2 : ∀ k mesh, Rec.rlookup (Rec.rset reg ns.id
      (Rec.createMeshFor reg (Rec.placeRecord routerExists ns))) k = some mesh →
      mesh.userData.id = k := by
    intro k mesh h
    by_cases hk : k = ns.id
    · subst hk
      rw [rec_rlookup_rset_self] at h
      obtain rfl : Rec.createMeshFor reg (Rec.placeRecord routerExists ns) = mesh := by
        simpa using h
      exact (rec_createMeshFor_id _ _).trans (rec_placeRecord_id _ _)
    · rw [rec_rlookup_rset_ne _ _ _ _ hk] at h
      exact hkid k mesh h
  have hcn2 : ∀ k mesh, Rec.rlookup (Rec.rset reg ns.id
      (Rec.createMeshFor reg (Rec.placeRecord routerExists ns))) k = some mesh →
      ∀ c ∈ mesh.children, ∃ port : Nat,
        c.name = Rec.portChildName k port ∧ c.userData.id = c.name := by
    intro k mesh h c hc
    by_cases hk : k = ns.id
    · subst hk
      rw [rec_rlookup_rset_self] at h
      obtain rfl : Rec.createMeshFor reg (Rec.placeRecord routerExists ns) = mesh := by
        simpa using h
      rw [rec_createMeshFor_children] at hc
      exact absurd hc (by simp)
    · rw [rec_rlookup_rset_ne _ _ _ _ hk] at h
      exact hcn k mesh h c hc
  obtain ⟨hp1, hp2, hp3, hp4, hp5⟩ :=
    rec_portStep_spec (Rec.setRecord st ns.id (Rec.placeRecord routerExists ns)) _ ns.id
      hnd2 hkid2 hcn2
  refine ⟨?_, ?_, ?_, ⟨hp2, hp3, hp4⟩, ?_⟩
  · rw [hp1]
    exact rec_stateKey_setRecord st ns.id _ hkey (rec_placeRecord_id _ _)
  · rw [hp1]
    exact rec_statePlain_setRecord st ns.id _ hplain
  · intro k
    rw [hp1, rec_getNode_setRecord_isSome]
  · intro k hk
    rw [hp5 k hk]
    by_cases hkq : k = ns.id
    · subst hkq
      rw [rec_rlookup_rset_self]
      simp
    · rw [rec_rlookup_rset_ne _ _ _ _ hkq]
      simp [hkq]

lemma rec_reconcileUpdate_spec (st : Rec.GraphState) (reg : Rec.Registry)
    (ns : Rec.NodeData) (mesh : Rec.Mesh)
    (hkey : Rec.StateKey st) (hplain : Rec.StatePlain st) (hwf : Rec.RegWF reg)
    (hsome : Rec.rlookup reg ns.id = some mesh) :
    Rec.StateKey (Rec.reconcileUpdate st reg ns mesh).1 ∧
    Rec.StatePlain (Rec.reconcileUpdate st reg ns mesh).1 ∧
    (∀ k, (Rec.getNode (Rec.reconcileUpdate st reg ns mesh).1 k).isSome
      = (Rec.getNode st k).isSome) ∧
    Rec.RegWF (Rec.reconcileUpdate st reg ns mesh).2 ∧
    (∀ k, Rec.PlainId k →
      ((Rec.rlookup (Rec.reconcileUpdate st reg ns mesh).2 k).isSome ↔
        ((Rec.rlookup reg k).isSome ∨ k = ns.id))) := by
  obtain ⟨hnd, hkid, hcn⟩ := hwf
  simp only [Rec.reconcileUpdate]
  have hnd2 : ((Rec.rset reg ns.id (Rec.updateMeshFor reg ns mesh)).map Prod.fst).Nodup :=
    rec_rset_nodup _ _ _ hnd
  have hkid2 : ∀ k mesh2, Rec.rlookup (Rec.rset reg ns.id
      (Rec.updateMeshFor reg ns mesh)) k = some mesh2 → mesh2.userData.id = k := by
    intro k mesh2 h
    by_cases hk : k = ns.id
    · subst hk
      rw [rec_rlookup_rset_self] at h
      obtain rfl : Rec.updateMeshFor reg ns mesh = mesh2 := by simpa using h
      exact rec_updateMeshFor_id _ _ _
    · rw [rec_rlookup_rset_ne _ _ _ _ hk] at h
      exact hkid k mesh2 h
  have hcn2 : ∀ k mesh2, Rec.rlookup (Rec.rset reg ns.id
      (Rec.updateMeshFor reg ns mesh)) k = some mesh2 →
      ∀ c ∈ mesh2.children, ∃ port : Nat,
        c.name = Rec.portChildName k port ∧ c.userData.id = c.name := by
    intro k mesh2 h c hc
    by_cases hk : k = ns.id
    · subst hk
      rw [rec_rlookup_rset_self] at h
      obtain rfl : Rec.updateMeshFor reg ns mesh = mesh2 := by simpa using h
      rw [rec_updateMeshFor_children] at hc
      exact hcn ns.id mesh hsome c hc
    · rw [rec_rlookup_rset_ne _ _ _ _ hk] at h
      exact hcn k mesh2 h c hc
  obtain ⟨hp1, hp2, hp3, hp4, hp5⟩ :=
    rec_portStep_spec st (Rec.rset reg ns.id (Rec.updateMeshFor reg ns mesh)) ns.id
      hnd2 hkid2 hcn2
  refine ⟨?_, ?_, ?_, ⟨hp2, hp3, hp4⟩, ?_⟩
  · rw [hp1]
    exact hkey
  · rw [hp1]
    exact hplain
  · intro k
    rw [hp1]
  · intro k hk
    rw [hp5 k hk]
    by_cases hkq : k = ns.id
    · subst hkq
      rw [rec_rlookup_rset_self]
      simp [hsome]
    · rw [rec_rlookup_rset_ne _ _ _ _ hkq]
      simp [hkq]

lemma rec_reconcileOne_spec (routerExists : Bool) (st : Rec.GraphState)
    (reg : Rec.Registry) (id : String)
    (hkey : Rec.StateKey st) (hplain : Rec.StatePlain st) (hwf : Rec.RegWF reg) :
    Rec.StateKey (Rec.reconcileOne routerExists st reg id).1 ∧
    Rec.StatePlain (Rec.reconcileOne routerExists st reg id).1 ∧
    (∀ k, (Rec.getNode (Rec.reconcileOne routerExists st reg id).1 k).isSome
      = (Rec.getNode st k).isSome) ∧
    Rec.RegWF (Rec.reconcileOne routerExists st reg id).2 ∧
    (∀ k, Rec.PlainId k →
      ((Rec.rlookup (Rec.reconcileOne routerExists st reg id).2 k).isSome ↔
        ((Rec.rlookup reg k).isSome ∨
          (k = id ∧ (Rec.getNode st id).isSome ∧ Rec.scanId id = false)))) := by
  unfold Rec.reconcileOne
  rcases hgn : Rec.getNode st id with _ | ns
  · refine ⟨hkey, hplain, fun k => rfl, hwf, ?_⟩
    intro k hk
    simp [hgn]
  · have hnsid : ns.id = id := hkey id ns hgn
    by_cases hsc : Rec.scanId ns.id
    · simp only [hsc, if_true]
      refine ⟨hkey, hplain, by intros; trivial, hwf, ?_⟩
      intro k hk
      have hscid : Rec.scanId id = true := hnsid ▸ hsc
      simp [hscid]
    · have hscf : Rec.scanId ns.id = false := by simpa using hsc
      have hscidf : Rec.scanId id = false := hnsid ▸ hscf
      simp only [hscf, Bool.false_eq_true, if_false]
      rcases hrl : Rec.rlookup reg ns.id with _ | mesh
      · obtain ⟨c1, c2, c3, c4, c5⟩ :=
          rec_reconcileCreate_spec routerExists st reg ns hkey hplain ⟨hwf.1, hwf.2.1, hwf.2.2⟩
        refine ⟨c1, c2, c3, c4, ?_⟩
        intro k hk
        rw [c5 k hk]
        constructor
        · rintro (h | h)
          · exact Or.inl h
          · exact Or.inr ⟨h.trans hnsid, by simp [hgn], hscidf⟩
        · rintro (h | h)
          · exact Or.inl h
          · exact Or.inr (h.1.trans hnsid.symm)
      · obtain ⟨c1, c2, c3, c4, c5⟩ :=
          rec_reconcileUpdate_spec st reg ns mesh hkey hplain ⟨hwf.1, hwf.2.1, hwf.2.2⟩ hrl
        refine ⟨c1, c2, c3, c4, ?_⟩
        intro k hk
        rw [c5 k hk]
        constructor
        · rintro (h | h)
          · exact Or.inl h
          · exact Or.inr ⟨h.trans hnsid, by simp [hgn], hscidf⟩
        · rintro (h | h)
          · exact Or.inl h
          · exact Or.inr (h.1.trans hnsid.symm)

lemma rec_reconcile_fold_spec (routerExists : Bool) (ids : List String)
    (st : Rec.GraphState) (reg : Rec.Registry)
    (hkey : Rec.StateKey st) (hplain : Rec.StatePlain st) (hwf : Rec.RegWF reg) :
    Rec.StateKey (ids.foldl
      (fun acc id => Rec.reconcileOne routerExists acc.1 acc.2 id) (st, reg)).1 ∧
    Rec.StatePlain (ids.foldl
      (fun acc id => Rec.reconcileOne routerExists acc.1 acc.2 id) (st, reg)).1 ∧
    (∀ k, (Rec.getNode (ids.foldl
      (fun acc id => Rec.reconcileOne routerExists acc.1 acc.2 id) (st, reg)).1 k).isSome
      = (Rec.getNode st k).isSome) ∧
    Rec.RegWF (ids.foldl
      (fun acc id => Rec.reconcileOne routerExists acc.1 acc.2 id) (st, reg)).2 ∧
    (∀ k, Rec.PlainId k →
      ((Rec.rlookup (ids.foldl
        (fun acc id => Rec.reconcileOne routerExists acc.1 acc.2 id) (st, reg)).2 k).isSome ↔
        ((Rec.rlookup reg k).isSome ∨
          (k ∈ ids ∧ (Rec.getNode st k).isSome ∧ Rec.scanId k = false)))) := by
  induction ids generalizing st reg with
  | nil => exact ⟨hkey, hplain, fun k => rfl, hwf, fun k hk => by simp⟩
  | cons id ids ih =>
    obtain ⟨o1, o2, o3, o4, o5⟩ := rec_reconcileOne_spec routerExists st reg id hkey hplain hwf
    obtain ⟨f1, f2, f3, f4, f5⟩ :=
      ih (Rec.reconcileOne routerExists st reg id).1
        (Rec.reconcileOne routerExists st reg id).2 o1 o2 o4
    refine ⟨f1, f2, ?_, f4, ?_⟩
    · intro k
      exact (f3 k).trans (o3 k)
    · intro k hk
      have hiff := f5 k hk
      rw [o5 k hk, o3 k] at hiff
      refine hiff.trans ?_
      constructor
      · rintro ((h | ⟨rfl, hp, hs⟩) | ⟨hm, hp, hs⟩)
        · exact Or.inl h
        · exact Or.inr ⟨List.mem_cons_self _ _, hp, hs⟩
        · exact Or.inr ⟨List.mem_cons_of_mem _ hm, hp, hs⟩
      · rintro (h | ⟨hm, hp, hs⟩)
        · exact Or.inl (Or.inl h)
        · rcases List.mem_cons.mp hm with rfl | hm2
          · exact Or.inl (Or.inr ⟨rfl, hp, hs⟩)
          · exact Or.inr ⟨hm2, hp, hs⟩

lemma rec_regwf_rset_flag (reg : Rec.Registry) (k : String) (mesh : Rec.Mesh)
    (u : Rec.UserData)
    (hwf : Rec.RegWF reg) (hl : Rec.rlookup reg k = some mesh)
    (hid : u.id = mesh.userData.id) :
    Rec.RegWF (Rec.rset reg k (mesh.withUserData u)) ∧
    (∀ q, (Rec.rlookup (Rec.rset reg k (mesh.withUserData u)) q).isSome
      = (Rec.rlookup reg q).isSome) := by
  obtain ⟨hnd, hkid, hcn⟩ := hwf
  refine ⟨⟨rec_rset_nodup _ _ _ hnd, ?_, ?_⟩, ?_⟩
  · intro q mesh2 h2
    by_cases hq : q = k
    · subst hq
      rw [rec_rlookup_rset_self] at h2
      obtain rfl : mesh.withUserData u = mesh2 := by simpa using h2
      show u.id = q
      exact hid.trans (hkid q mesh hl)
    · rw [rec_rlookup_rset_ne _ _ _ _ hq] at h2
      exact hkid q mesh2 h2
  · intro q mesh2 h2 c hc
    by_cases hq : q = k
    · subst hq
      rw [rec_rlookup_rset_self] at h2
      obtain rfl : mesh.withUserData u = mesh2 := by simpa using h2
      have hc2 : c ∈ mesh.children := hc
      exact hcn q mesh hl c hc2
    · rw [rec_rlookup_rset_ne _ _ _ _ hq] at h2
      exact hcn q mesh2 h2 c hc
  · intro q
    by_cases hq : q = k
    · subst hq
      rw [rec_rlookup_rset_self]
      simp [hl]
    · rw [rec_rlookup_rset_ne _ _ _ _ hq]

lemma rec_applyPending_spec (reg : Rec.Registry) (hwf : Rec.RegWF reg) :
    Rec.RegWF (Rec.applyPendingCAUpdates reg) ∧
    (∀ q, (Rec.rlookup (Rec.applyPendingCAUpdates reg) q).isSome
      = (Rec.rlookup reg q).isSome) := by
  unfold Rec.applyPendingCAUpdates
  rcases hf : reg.find? (fun kv =>
      kv.2.userData.needsCAUpdate && !kv.2.userData.caProcessing
        && !kv.2.userData.caEnabled) with _ | kv
  · simp only [hf]
    exact ⟨hwf, fun q => trivial⟩
  · have hmem : kv ∈ reg := List.mem_of_find?_eq_some hf
    have hl : Rec.rlookup reg kv.1 = some kv.2 := rec_mem_rlookup reg hwf.1 kv.1 kv.2 hmem
    simp only [hf]
    exact rec_regwf_rset_flag reg kv.1 kv.2 _ hwf hl rfl

lemma rec_mergeStep_spec (m : Rec.Manager) (nd : Rec.NodeData)
    (hkey : Rec.StateKey m.state) (hplain : Rec.StatePlain m.state)
    (hwf : Rec.RegWF m.registry) (hnd : Rec.PlainId nd.id) :
    Rec.StateKey (Rec.mergeStep m nd).state ∧
    Rec.StatePlain (Rec.mergeStep m nd).state ∧
    (∀ k, (Rec.getNode (Rec.mergeStep m nd).state k).isSome ↔
      ((Rec.getNode m.state k).isSome ∨ k = nd.id)) ∧
    (Rec.RegWF (Rec.mergeStep m nd).registry ∧
      ∀ k, (Rec.rlookup (Rec.mergeStep m nd).registry k).isSome
        = (Rec.rlookup m.registry k).isSome) ∧
    (∀ k, k ∈ (Rec.mergeStep m nd).changed ↔ (k ∈ m.changed ∨ k = nd.id)) := by
  simp only [Rec.mergeStep]
  refine ⟨?_, ?_, ?_, ?_, ?_⟩
  · intro k r hr
    by_cases hk : k = nd.id
    · subst hk
      obtain ⟨r2, hr2, hid2⟩ := rec_getNode_addOrUpdate_self m.state nd
      rw [hr] at hr2
      obtain rfl : r = r2 := by simpa using hr2
      exact hid2
    · rw [rec_getNode_addOrUpdate_ne m.state nd k hk] at hr
      exact hkey k r hr
  · intro k hk
    rw [rec_getNode_addOrUpdate_isSome] at hk
    rcases hk with hk | rfl
    · exact hplain k hk
    · exact hnd
  · intro k
    exact rec_getNode_addOrUpdate_isSome m.state nd k
  · split
    · split
      · rename_i mesh hmesh
        split
        · exact rec_regwf_rset_flag m.registry nd.id mesh _ hwf hmesh rfl
        · exact ⟨hwf, fun k => rfl⟩
      · exact ⟨hwf, fun k => rfl⟩
    · exact ⟨hwf, fun k => rfl⟩
  · intro k
    by_cases hc : m.changed.contains nd.id = true
    · rw [if_pos hc]
      have hmemc : nd.id ∈ m.changed := by simpa using hc
      constructor
      · exact Or.inl
      · rintro (h | rfl)
        · exact h
        · exact hmemc
    · rw [if_neg hc]
      simp [List.mem_append]

lemma rec_mergeFold_spec (snaps : List Rec.NodeData) (m : Rec.Manager)
    (hkey : Rec.StateKey m.state) (hplain : Rec.StatePlain m.state)
    (hwf : Rec.RegWF m.registry) (hsn : ∀ nd ∈ snaps, Rec.PlainId nd.id) :
    Rec.StateKey (snaps.foldl Rec.mergeStep m).state ∧
    Rec.StatePlain (snaps.foldl Rec.mergeStep m).state ∧
    (∀ k, (Rec.getNode (snaps.foldl Rec.mergeStep m).state k).isSome ↔
      ((Rec.getNode m.state k).isSome ∨ k ∈ snaps.map Rec.NodeData.id)) ∧
    (Rec.RegWF (snaps.foldl Rec.mergeStep m).registry ∧
      ∀ k, (Rec.rlookup (snaps.foldl Rec.mergeStep m).registry k).isSome
        = (Rec.rlookup m.registry k).isSome) ∧
    (∀ k, k ∈ (snaps.foldl Rec.mergeStep m).changed ↔
      (k ∈ m.changed ∨ k ∈ snaps.map Rec.NodeData.id)) := by
  induction snaps generalizing m with
  | nil =>
    exact ⟨hkey, hplain, fun k => by simp, ⟨hwf, fun k => rfl⟩, fun k => by simp⟩
  | cons nd rest ih =>
    obtain ⟨s1, s2, s3, ⟨s4, s5⟩, s6⟩ :=
      rec_mergeStep_spec m nd hkey hplain hwf (hsn nd (by simp))
    obtain ⟨f1, f2, f3, ⟨f4, f5⟩, f6⟩ :=
      ih (Rec.mergeStep m nd) s1 s2 s4 (fun nd2 h2 => hsn nd2 (by simp [h2]))
    rw [List.foldl_cons]
    refine ⟨f1, f2, ?_, ⟨f4, ?_⟩, ?_⟩
    · intro k
      rw [f3 k, s3 k]
      simp only [List.map_cons, List.mem_cons]
      tauto
    · intro k
      exact (f5 k).trans (s5 k)
    · intro k
      rw [f6 k, s6 k]
      simp only [List.map_cons, List.mem_cons]
      tauto

lemma rec_reconcileSceneMeshes_spec (changed : List String) (st : Rec.GraphState)
    (reg : Rec.Registry)
    (hkey : Rec.StateKey st) (hplain : Rec.StatePlain st) (hwf : Rec.RegWF reg) :
    Rec.StateKey (Rec.reconcileSceneMeshes changed st reg).1 ∧
    Rec.StatePlain (Rec.reconcileSceneMeshes changed st reg).1 ∧
    (∀ k, (Rec.getNode (Rec.reconcileSceneMeshes changed st reg).1 k).isSome
      = (Rec.getNode st k).isSome) ∧
    Rec.RegWF (Rec.reconcileSceneMeshes changed st reg).2 ∧
    (∀ k, Rec.PlainId k →
      ((Rec.rlookup (Rec.reconcileSceneMeshes changed st reg).2 k).isSome ↔
        ((Rec.rlookup reg k).isSome ∨
          (k ∈ (if changed.isEmpty then st.map Prod.fst else changed) ∧
            (Rec.getNode st k).isSome ∧ Rec.scanId k = false)))) :=
  rec_reconcile_fold_spec (Rec.rlookup reg "router").isSome
    (if changed.isEmpty then st.map Prod.fst else changed) st reg
    hkey hplain hwf

lemma rec_emptyManager_WF : Rec.ManagerWF Rec.emptyManager := by
  refine ⟨⟨by simp [Rec.emptyManager], ?_, ?_⟩, ?_, ?_, rfl, ?_, ?_⟩
  · intro k mesh h
    simp [Rec.emptyManager, Rec.rlookup] at h
  · intro k mesh h
    simp [Rec.emptyManager, Rec.rlookup] at h
  · intro id r h
    simp [Rec.emptyManager, rec_getNode_nil] at h
  · intro id h
    simp [Rec.emptyManager, rec_getNode_nil] at h
  · intro id h
    simp [Rec.emptyManager, rec_getNode_nil] at h
  · intro id h
    simp [Rec.emptyManager, Rec.rlookup] at h

lemma rec_updateNodes_WF (m : Rec.Manager) (snaps : List Rec.NodeData)
    (hWF : Rec.ManagerWF m) (hsn : ∀ nd ∈ snaps, Rec.PlainId nd.id) :
    Rec.ManagerWF (Rec.updateNodes m snaps) := by
  obtain ⟨hreg, hkey, hplain, hch, hincl1, hincl2⟩ := hWF
  obtain ⟨m1key, m1plain, m1pres, ⟨m1reg, m1look⟩, m1ch⟩ :=
    rec_mergeFold_spec snaps m hkey hplain hreg hsn
  set m1 := snaps.foldl Rec.mergeStep m with hm1def
  obtain ⟨r1, r2, r3, r4, r5⟩ :=
    rec_reconcileSceneMeshes_spec m1.changed m1.state m1.registry m1key m1plain m1reg
  set sr := Rec.reconcileSceneMeshes m1.changed m1.state m1.registry with hsrdef
  obtain ⟨a1, a2⟩ := rec_applyPending_spec sr.2 r4
  refine ⟨?_, ?_, ?_, ?_, ?_, ?_⟩
  · exact a1
  · exact r1
  · exact r2
  · rfl
  · intro id hpres hscan
    have hpres2 : (Rec.getNode sr.1 id).isSome := hpres
    rw [r3 id] at hpres2
    have hplid : Rec.PlainId id := m1plain id hpres2
    have hsr2 : (Rec.rlookup sr.2 id).isSome := by
      rw [r5 id hplid]
      rw [m1pres id] at hpres2
      rcases hpres2 with hm | hsnap
      · left
        rw [m1look id]
        exact hincl1 id hm hscan
      · right
        refine ⟨?_, ?_, hscan⟩
        · by_cases hemp : m1.changed.isEmpty = true
          · rw [if_pos hemp]
            have hpm1 : (Rec.getNode m1.state id).isSome := by
              rw [m1pres id]
              exact Or.inr hsnap
            exact (rec_getNode_isSome_iff_mem_keys m1.state id).mp hpm1
          · rw [if_neg hemp]
            exact (m1ch id).mpr (Or.inr hsnap)
        · rw [m1pres id]
          exact Or.inr hsnap
    show (Rec.rlookup (Rec.applyPendingCAUpdates sr.2) id).isSome
    rw [a2 id]
    exact hsr2
  · intro id hlook hplid
    have h0 : (Rec.rlookup (Rec.applyPendingCAUpdates sr.2) id).isSome := hlook
    rw [a2 id] at h0
    rw [r5 id hplid] at h0
    rcases h0 with hm | ⟨hin, hpresm1, hscan⟩
    · rw [m1look id] at hm
      obtain ⟨hp, hs⟩ := hincl2 id hm hplid
      refine ⟨?_, hs⟩
      show (Rec.getNode sr.1 id).isSome
      rw [r3 id, m1pres id]
      exact Or.inl hp
    · refine ⟨?_, hscan⟩
      show (Rec.getNode sr.1 id).isSome
      rw [r3 id]
      exact hpresm1

lemma rec_trace_WF_aux (snapss : List (List Rec.NodeData)) :
    ∀ m : Rec.Manager, Rec.ManagerWF m →
      (∀ snaps ∈ snapss, ∀ nd ∈ snaps, Rec.PlainId nd.id) →
      Rec.ManagerWF (snapss.foldl Rec.updateNodes m) := by
  induction snapss with
  | nil =>
    intro m hm _
    exact hm
  | cons snaps rest ih =>
    intro m hm hplainAll
    rw [List.foldl_cons]
    exact ih (Rec.updateNodes m snaps)
      (rec_updateNodes_WF m snaps hm (hplainAll snaps (by simp)))
      (fun s hs nd hn => hplainAll s (by simp [hs]) nd hn)

lemma rec_plainId_of_no_dash (id : String) (h : ('-' : Char) ∉ id.data) :
    Rec.PlainId id := by
  intro p port hEq
  apply h
  rw [hEq]
  show ('-' : Char) ∈ (Rec.portChildName p port).data
  simp only [Rec.portChildName, Rec.portStem, String.data_append, List.mem_append]
  left
  right
  decide

/-- C3 (divergence evidence): fetchNodeGenes never routes through the
RequestQueue, and on a cache miss with a failing fetch it performs exactly
one direct network call and hands the caller null with no retry. -/
theorem fetchNodeGenes_direct_fetch_no_queue :
    (∀ (c : Option Gene.GeneCacheEntry) (now : Nat) (net : Gene.GeneFetchOutcome),
      (Gene.fetchNodeGenes c now net).requestQueueEnqueues = 0) ∧
    Gene.fetchNodeGenes none 0 .httpError =
      { result := none, directFetchCalls := 1, requestQueueEnqueues := 0,
        cacheWrite := none } := by
  constructor
  · intro c now net
    cases c with
    | none => cases net <;> rfl
    | some e =>
      by_cases h : now - e.timestamp < Gene.CACHE_DURATION
      · simp [Gene.fetchNodeGenes, h]
      · cases net <;> simp [Gene.fetchNodeGenes, h]
  · rfl

/-- C4 (counterexample to the stated iff): after one updateNodes call that
supplies the device 10.0.0.5 with open port 22, the registry holds a mesh
under the port-moon id 10.0.0.5-port-22 (spawnChildNodes registers every
moon), yet GraphState has no record under that id, so a render object
exists for an id that does not appear in the reconciled node set. -/
theorem registry_state_iff_counterexample :
    (Rec.rlookup (Rec.updateNodes Rec.emptyManager
        [Rec.deviceSnapshot [22]]).registry "10.0.0.5-port-22").isSome = true ∧
    Rec.getNode (Rec.updateNodes Rec.emptyManager
        [Rec.deviceSnapshot [22]]).state "10.0.0.5-port-22" = none := by
  constructor
  · decide
  · decide

/-- C4 (amended): restricted to plain ids (ids that are not of the spawned
port-moon form parent-port-N), the claimed correspondence holds between
updateNodes calls: for every trace of updateNodes calls from a fresh manager
whose snapshots carry only plain ids, a registry entry exists for a plain id
iff that id has a GraphState record and is not one of the five scan-marker
ids that reconciliation skips. -/
theorem registry_matches_reconciled_amended
    (snapss : List (List Rec.NodeData))
    (hplainAll : ∀ snaps ∈ snapss, ∀ nd ∈ snaps, Rec.PlainId nd.id)
    (id : String) (hid : Rec.PlainId id) :
    (Rec.rlookup (snapss.foldl Rec.updateNodes Rec.emptyManager).registry id).isSome ↔
      ((Rec.getNode (snapss.foldl Rec.updateNodes Rec.emptyManager).state id).isSome ∧
        Rec.scanId id = false) := by
  obtain ⟨_, _, _, _, hincl1, hincl2⟩ :=
    rec_trace_WF_aux snapss Rec.emptyManager rec_emptyManager_WF hplainAll
  constructor
  · intro h
    exact hincl2 id h hid
  · rintro ⟨hp, hs⟩
    exact hincl1 id hp hs

theorem registry_matches_reconciled_amended_witness :
    (Rec.rlookup ([[Rec.deviceSnapshot [22]]].foldl Rec.updateNodes
        Rec.emptyManager).registry "10.0.0.5").isSome ↔
      ((Rec.getNode ([[Rec.deviceSnapshot [22]]].foldl Rec.updateNodes
        Rec.emptyManager).state "10.0.0.5").isSome ∧
        Rec.scanId "10.0.0.5" = false) :=
  registry_matches_reconciled_amended [[Rec.deviceSnapshot [22]]]
    (by
      intro snaps hs nd hn
      simp only [List.mem_singleton] at hs
      subst hs
      simp only [List.mem_singleton] at hn
      subst hn
      exact rec_plainId_of_no_dash _ (by decide))
    "10.0.0.5" (rec_plainId_of_no_dash _ (by decide))
